import Mathlib

/-!
Verification development for the PyMuLiSe music-library server.

The definitions below are a shallow embedding of the Python sources
(`modules/model_song.py`, `modules/model_album.py`, `modules/model_artist.py`,
`modules/library_utils.py`, `modules/library_service.py`,
`modules/general_utils.py`): pure functions become Lean functions, mutation
becomes explicit state passing, Python exceptions become `Except` values,
floats become exact rationals, and `hashlib.sha256(x).hexdigest()` is
idealized as an injective encoding of its input string (collisions of the
real digest are ignored; equality of modelled hashes is equality of the
hashed strings).
-/

namespace PyMuLiSe

/-! ### Decimal rendering of naturals, as Python `str`/f-strings produce it -/

/-- Characters of the decimal rendering of `n` (most significant first),
with explicit fuel; `fuel > n` suffices. -/
def natChars : Nat → Nat → List Char
  | 0, _ => []
  | _ + 1, 0 => []
  | fuel + 1, n + 1 => natChars fuel ((n + 1) / 10) ++ [Nat.digitChar ((n + 1) % 10)]

/-- Decimal rendering of a natural number, as Python formats nonnegative ints. -/
def natStr (n : Nat) : String :=
  if n = 0 then "0" else (natChars (n + 1) n).asString

/-- Left inverse used to prove `natStr` injective. -/
def decodeChars (l : List Char) : Nat :=
  l.foldl (fun acc c => acc * 10 + (c.toNat - 48)) 0

theorem decodeChars_append (l : List Char) (c : Char) :
    decodeChars (l ++ [c]) = decodeChars l * 10 + (c.toNat - 48) := by
  simp [decodeChars, List.foldl_append]

theorem digitChar_toNat (d : Nat) (hd : d < 10) : (Nat.digitChar d).toNat - 48 = d := by
  interval_cases d <;> rfl

theorem decodeChars_natChars : ∀ n fuel, n < fuel →
    ∀ acc, decodeChars acc = 0 → decodeChars (acc ++ natChars fuel n) = n := by
  intro n
  induction n using Nat.strong_induction_on with
  | _ n ih =>
    intro fuel hfuel acc hacc
    match fuel, n with
    | f + 1, 0 => simpa [natChars] using hacc
    | f + 1, m + 1 =>
      have hlt : (m + 1) / 10 < m + 1 := Nat.div_lt_self (Nat.succ_pos m) (by norm_num)
      have hdiv : (m + 1) / 10 < f := by omega
      have hrec := ih ((m + 1) / 10) hlt f hdiv acc hacc
      have hstep : decodeChars (acc ++ natChars (f + 1) (m + 1))
          = decodeChars ((acc ++ natChars f ((m + 1) / 10)) ++ [Nat.digitChar ((m + 1) % 10)]) := by
        rw [natChars, List.append_assoc]
      rw [hstep, decodeChars_append, hrec, digitChar_toNat _ (Nat.mod_lt _ (by norm_num))]
      omega

theorem decodeChars_natStr (n : Nat) : decodeChars (natStr n).data = n := by
  by_cases h : n = 0
  · subst h; rfl
  · have hpos : 0 < n := Nat.pos_of_ne_zero h
    have := decodeChars_natChars n (n + 1) (Nat.lt_succ_self n) [] rfl
    simpa [natStr, h, List.asString] using this

theorem natStr_injective : Function.Injective natStr := by
  intro a b h
  have : decodeChars (natStr a).data = decodeChars (natStr b).data := by rw [h]
  rwa [decodeChars_natStr, decodeChars_natStr] at this

/-- Python `str.lower()` (per-character, as for the ASCII values involved). -/
def pyLower (s : String) : String := String.mk (s.data.map Char.toLower)

/-! ### Python `set` cardinalities over lists, and first-occurrence dedup -/

/-- Helper for first-occurrence deduplication: skip elements already seen. -/
def dedupFAux {α : Type} [DecidableEq α] (seen : List α) : List α → List α
  | [] => []
  | x :: xs => if x ∈ seen then dedupFAux seen xs else x :: dedupFAux (x :: seen) xs

/-- Deduplication keeping first occurrences, matching both Python
`list(dict.fromkeys(xs))` and the element set of `set(xs)`. -/
def dedupF {α : Type} [DecidableEq α] (l : List α) : List α := dedupFAux [] l

theorem mem_dedupFAux {α : Type} [DecidableEq α] (a : α) :
    ∀ (l seen : List α), a ∈ dedupFAux seen l ↔ a ∈ l ∧ a ∉ seen := by
  intro l
  induction l with
  | nil => simp [dedupFAux]
  | cons x xs ih =>
    intro seen
    by_cases hx : x ∈ seen
    · rw [dedupFAux, if_pos hx, ih]
      constructor
      · rintro ⟨h1, h2⟩
        exact ⟨List.mem_cons_of_mem _ h1, h2⟩
      · rintro ⟨h1, h2⟩
        rcases List.mem_cons.mp h1 with rfl | h1
        · exact absurd hx h2
        · exact ⟨h1, h2⟩
    · rw [dedupFAux, if_neg hx]
      by_cases hax : a = x
      · subst hax
        simp [List.mem_cons, hx]
      · simp only [List.mem_cons, ih, hax, false_or, not_or]

theorem mem_dedupF {α : Type} [DecidableEq α] (a : α) (l : List α) : a ∈ dedupF l ↔ a ∈ l := by
  simp [dedupF, mem_dedupFAux]

theorem nodup_dedupFAux {α : Type} [DecidableEq α] :
    ∀ (l seen : List α), (dedupFAux seen l).Nodup := by
  intro l
  induction l with
  | nil => simp [dedupFAux]
  | cons x xs ih =>
    intro seen
    by_cases hx : x ∈ seen
    · rw [dedupFAux, if_pos hx]
      exact ih seen
    · rw [dedupFAux, if_neg hx, List.nodup_cons]
      refine ⟨fun hmem => ?_, ih (x :: seen)⟩
      exact ((mem_dedupFAux x xs (x :: seen)).mp hmem).2 (List.mem_cons_self x seen)

theorem nodup_dedupF {α : Type} [DecidableEq α] (l : List α) : (dedupF l).Nodup :=
  nodup_dedupFAux l []

theorem dedupFAux_congr {α : Type} [DecidableEq α] :
    ∀ (l s1 s2 : List α), (∀ a, a ∈ s1 ↔ a ∈ s2) → dedupFAux s1 l = dedupFAux s2 l := by
  intro l
  induction l with
  | nil => intro s1 s2 _; rfl
  | cons x xs ih =>
    intro s1 s2 hmem
    by_cases hx : x ∈ s1
    · rw [dedupFAux, if_pos hx, dedupFAux, if_pos ((hmem x).mp hx)]
      exact ih s1 s2 hmem
    · rw [dedupFAux, if_neg hx, dedupFAux, if_neg (fun h => hx ((hmem x).mpr h))]
      refine congrArg (x :: ·) (ih _ _ fun a => ?_)
      simp [List.mem_cons, hmem a]

/-- Cardinality of `set(xs) & set(ys)` for Python lists. -/
def interCard {α : Type} [DecidableEq α] (xs ys : List α) : Nat :=
  ((dedupF xs).filter (fun x => x ∈ ys)).length

/-- Cardinality of `set(xs) | set(ys)` for Python lists. -/
def unionCard {α : Type} [DecidableEq α] (xs ys : List α) : Nat :=
  (dedupF (xs ++ ys)).length

/-- `modules/general_utils.py`, `_jaccard_index`: 0 when either list is empty,
otherwise intersection size over `max 1 (union size)`. -/
def _jaccard_index {α : Type} [DecidableEq α] (xs ys : List α) : ℚ :=
  if xs = [] ∨ ys = [] then 0
  else (interCard xs ys : ℚ) / (max 1 (unionCard xs ys) : ℚ)

/-! ### The Song entity (`modules/model_song.py`) -/

/-- Idealized `hashlib.sha256(s.encode()).hexdigest()`: an injective encoding
of the hashed string; hash equality in the model is preimage equality. -/
def sha256_hex (s : String) : String := s

/-- The fields of `Song.__init__` in `modules/model_song.py` (the class has
exactly these attributes; in particular there is no `additional_data`
attribute).  `popularity` is never assigned by the class itself: only
`scan_library` (line 300) sets it, and only for songs with plays, so it is an
`Option` here, `none` modelling the absent attribute (reading it then raises
`AttributeError`).  Floats (`loudness`, `peak`, `popularity`) are exact
rationals. -/
structure Song where
  file_path : String
  track_number : Nat
  disc_number : Nat
  title : String
  album_artist : String
  other_artists : List String
  album : String
  duration : Nat
  release_year : Int
  genres : List String
  play_count : Nat
  last_played : String
  lyrics : String
  explicit : Bool
  bitrate : Nat
  format : String
  file_size : Nat
  cover_art : String
  loudness : ℚ
  peak : ℚ
  lastfm_playcount : Nat
  lastfm_tags : List String
  hash : String
  popularity : Option ℚ
deriving DecidableEq, Repr

/-- `Song.get_artists`: `", ".join([self.album_artist] + self.other_artists)`
(the list is never empty, so the "Unknown" fallback of the source is dead). -/
def Song.get_artists (s : Song) : String :=
  String.intercalate ", " (s.album_artist :: s.other_artists)

/-- The string hashed by `Song.get_hash`:
`f"{self.get_artists()}|{self.album}|{self.disc_number}.{self.track_number}|{self.title}"`. -/
def Song.hashInput (s : Song) : String :=
  s.get_artists ++ "|" ++ s.album ++ "|" ++ natStr s.disc_number ++ "." ++
    natStr s.track_number ++ "|" ++ s.title

/-- `Song.get_hash`: returns the cached `self.hash` when truthy (non-empty);
otherwise computes the digest of `hashInput`, caches it, and returns it.
The second component is the possibly-mutated song. -/
def Song.get_hash (s : Song) : String × Song :=
  if s.hash = "" then
    let h := sha256_hex s.hashInput
    (h, { s with hash := h })
  else (s.hash, s)

theorem str_append_cancel_left {s t u : String} (h : s ++ t = s ++ u) : t = u := by
  have hd : (s ++ t).data = (s ++ u).data := by rw [h]
  rw [String.data_append, String.data_append] at hd
  exact String.ext (List.append_cancel_left hd)

theorem str_append_cancel_right {t u s : String} (h : t ++ s = u ++ s) : t = u := by
  have hd : (t ++ s).data = (u ++ s).data := by rw [h]
  rw [String.data_append, String.data_append] at hd
  exact String.ext (List.append_cancel_right hd)

theorem sha256_hex_injective : Function.Injective sha256_hex := fun _ _ h => h

theorem get_hash_fst_uncached (s : Song) (h : s.hash = "") :
    (Song.get_hash s).1 = sha256_hex s.hashInput := by
  simp [Song.get_hash, h]

theorem get_hash_fst_cached (s : Song) (h : s.hash ≠ "") : (Song.get_hash s).1 = s.hash := by
  simp [Song.get_hash, h]

/-- A placeholder song: every field empty or zero, as `Song()` initializes. -/
def song0 : Song where
  file_path := ""
  track_number := 0
  disc_number := 0
  title := ""
  album_artist := ""
  other_artists := []
  album := ""
  duration := 0
  release_year := 0
  genres := []
  play_count := 0
  last_played := ""
  lyrics := ""
  explicit := false
  bitrate := 0
  format := ""
  file_size := 0
  cover_art := ""
  loudness := 0
  peak := 0
  lastfm_playcount := 0
  lastfm_tags := []
  hash := ""
  popularity := none

/-- Concrete song with a cached (already computed or persisted) hash value. -/
def songCached : Song := { song0 with title := "Alpha", album := "X", hash := "cachedhash" }

/-- Concrete uncached song whose artist string and album collide with
`songColl2` after interleaving with the unescaped separator. -/
def songColl1 : Song := { song0 with album_artist := "A|B", album := "1" }

/-- Concrete uncached song colliding with `songColl1`. -/
def songColl2 : Song := { song0 with album_artist := "A", album := "B|1" }

/-- C7, amended: the identity hash ignores `file_path`; for songs with an
empty cached hash it is determined by (artist string, album, disc, track,
title), and a change of exactly one of these components changes it; once a
hash is cached, `get_hash` returns the cached value regardless of any later
tag change. -/
theorem C7_identity_hash :
    (∀ (s : Song) (q : String),
      (Song.get_hash { s with file_path := q }).1 = (Song.get_hash s).1)
    ∧ (∀ s1 s2 : Song, s1.hash = "" → s2.hash = "" →
        s1.get_artists = s2.get_artists → s1.album = s2.album →
        s1.disc_number = s2.disc_number → s1.track_number = s2.track_number →
        s1.title = s2.title → (Song.get_hash s1).1 = (Song.get_hash s2).1)
    ∧ (∀ s1 s2 : Song, s1.hash = "" → s2.hash = "" →
        s1.get_artists = s2.get_artists → s1.album = s2.album →
        s1.disc_number = s2.disc_number → s1.track_number = s2.track_number →
        s1.title ≠ s2.title → (Song.get_hash s1).1 ≠ (Song.get_hash s2).1)
    ∧ (∀ s1 s2 : Song, s1.hash = "" → s2.hash = "" →
        s1.get_artists = s2.get_artists → s1.album ≠ s2.album →
        s1.disc_number = s2.disc_number → s1.track_number = s2.track_number →
        s1.title = s2.title → (Song.get_hash s1).1 ≠ (Song.get_hash s2).1)
    ∧ (∀ s1 s2 : Song, s1.hash = "" → s2.hash = "" →
        s1.get_artists ≠ s2.get_artists → s1.album = s2.album →
        s1.disc_number = s2.disc_number → s1.track_number = s2.track_number →
        s1.title = s2.title → (Song.get_hash s1).1 ≠ (Song.get_hash s2).1)
    ∧ (∀ s1 s2 : Song, s1.hash = "" → s2.hash = "" →
        s1.get_artists = s2.get_artists → s1.album = s2.album →
        s1.disc_number ≠ s2.disc_number → s1.track_number = s2.track_number →
        s1.title = s2.title → (Song.get_hash s1).1 ≠ (Song.get_hash s2).1)
    ∧ (∀ s1 s2 : Song, s1.hash = "" → s2.hash = "" →
        s1.get_artists = s2.get_artists → s1.album = s2.album →
        s1.disc_number = s2.disc_number → s1.track_number ≠ s2.track_number →
        s1.title = s2.title → (Song.get_hash s1).1 ≠ (Song.get_hash s2).1)
    ∧ (∀ (s : Song) (t : String), s.hash ≠ "" →
        (Song.get_hash { s with title := t }).1 = s.hash) := by
  refine ⟨?_, ?_, ?_, ?_, ?_, ?_, ?_, ?_⟩
  · intro s q
    by_cases h : s.hash = "" <;>
      simp [Song.get_hash, h, Song.hashInput, Song.get_artists]
  · intro s1 s2 h1 h2 ha hb hd ht hti
    rw [get_hash_fst_uncached _ h1, get_hash_fst_uncached _ h2]
    unfold Song.hashInput
    rw [ha, hb, hd, ht, hti]
  · intro s1 s2 h1 h2 ha hb hd ht hti heq
    rw [get_hash_fst_uncached _ h1, get_hash_fst_uncached _ h2] at heq
    have hin := sha256_hex_injective heq
    unfold Song.hashInput at hin
    rw [ha, hb, hd, ht] at hin
    exact hti (str_append_cancel_left hin)
  · intro s1 s2 h1 h2 ha hb hd ht hti heq
    rw [get_hash_fst_uncached _ h1, get_hash_fst_uncached _ h2] at heq
    have hin := sha256_hex_injective heq
    unfold Song.hashInput at hin
    rw [ha, hd, ht, hti] at hin
    have e1 := str_append_cancel_right hin
    have e2 := str_append_cancel_right e1
    have e3 := str_append_cancel_right e2
    have e4 := str_append_cancel_right e3
    have e5 := str_append_cancel_right e4
    have e6 := str_append_cancel_right e5
    exact hb (str_append_cancel_left e6)
  · intro s1 s2 h1 h2 ha hb hd ht hti heq
    rw [get_hash_fst_uncached _ h1, get_hash_fst_uncached _ h2] at heq
    have hin := sha256_hex_injective heq
    unfold Song.hashInput at hin
    rw [hb, hd, ht, hti] at hin
    have e1 := str_append_cancel_right hin
    have e2 := str_append_cancel_right e1
    have e3 := str_append_cancel_right e2
    have e4 := str_append_cancel_right e3
    have e5 := str_append_cancel_right e4
    have e6 := str_append_cancel_right e5
    have e7 := str_append_cancel_right e6
    exact ha (str_append_cancel_right e7)
  · intro s1 s2 h1 h2 ha hb hd ht hti heq
    rw [get_hash_fst_uncached _ h1, get_hash_fst_uncached _ h2] at heq
    have hin := sha256_hex_injective heq
    unfold Song.hashInput at hin
    rw [ha, hb, ht, hti] at hin
    have e1 := str_append_cancel_right hin
    have e2 := str_append_cancel_right e1
    have e3 := str_append_cancel_right e2
    have e4 := str_append_cancel_right e3
    have e5 := str_append_cancel_left e4
    exact hd (natStr_injective e5)
  · intro s1 s2 h1 h2 ha hb hd ht hti heq
    rw [get_hash_fst_uncached _ h1, get_hash_fst_uncached _ h2] at heq
    have hin := sha256_hex_injective heq
    unfold Song.hashInput at hin
    rw [ha, hb, hd, hti] at hin
    have e1 := str_append_cancel_right hin
    have e2 := str_append_cancel_right e1
    have e3 := str_append_cancel_left e2
    exact ht (natStr_injective e3)
  · intro s t h
    have : ({ s with title := t } : Song).hash = s.hash := rfl
    rw [get_hash_fst_cached _ (by rw [this]; exact h), this]

/-- C7, counterexample to the claim as stated: a title change leaves the
identity hash of a song with a cached hash unchanged, and two uncached songs
differing in both artist string and album share one identity hash (the
unescaped separator makes the hashed string collide). -/
theorem C7_counterexample :
    (songCached.hash ≠ "" ∧ "Beta" ≠ songCached.title ∧
      (Song.get_hash { songCached with title := "Beta" }).1 = (Song.get_hash songCached).1)
    ∧ (songColl1.hash = "" ∧ songColl2.hash = "" ∧
      songColl1.album_artist ≠ songColl2.album_artist ∧
      songColl1.album ≠ songColl2.album ∧
      songColl1.disc_number = songColl2.disc_number ∧
      songColl1.track_number = songColl2.track_number ∧
      songColl1.title = songColl2.title ∧
      (Song.get_hash songColl1).1 = (Song.get_hash songColl2).1) := by
  decide

/-- Closed instance of `C7_identity_hash`: a title-only change of an uncached
song changes its identity hash. -/
theorem C7_identity_hash_witness :
    (Song.get_hash { songColl1 with title := "T2" }).1 ≠ (Song.get_hash songColl1).1 :=
  C7_identity_hash.2.2.1 { songColl1 with title := "T2" } songColl1
    rfl rfl rfl rfl rfl rfl (by decide)

/-! ### Insertion-ordered counting dicts (Python `dict.get(k, 0) + 1` loops) -/

/-- One `counts[k] = counts.get(k, 0) + 1` step on an insertion-ordered
association list. -/
def bumpCount (k : String) : List (String × Nat) → List (String × Nat)
  | [] => [(k, 1)]
  | (k2, c) :: rest => if k2 = k then (k2, c + 1) :: rest else (k2, c) :: bumpCount k rest

/-- The counting dict a Python `for v in vals: counts[v] = counts.get(v, 0) + 1`
loop builds (keys in first-occurrence order). -/
def countsOf (vals : List String) : List (String × Nat) :=
  vals.foldl (fun acc v => bumpCount v acc) []

/-- Lookup in a counting dict, 0 when absent. -/
def lookupCount (k : String) : List (String × Nat) → Nat
  | [] => 0
  | (k2, c) :: rest => if k2 = k then c else lookupCount k rest

theorem bumpCount_keys_mem (k : String) (acc : List (String × Nat))
    (h : k ∈ acc.map Prod.fst) : (bumpCount k acc).map Prod.fst = acc.map Prod.fst := by
  induction acc with
  | nil => simp at h
  | cons kc rest ih =>
    obtain ⟨k2, c⟩ := kc
    by_cases hk : k2 = k
    · simp [bumpCount, hk]
    · have h2 : k ∈ rest.map Prod.fst := by
        simpa [hk, Ne.symm hk] using h
      simp [bumpCount, hk, ih h2]

theorem bumpCount_keys_new (k : String) (acc : List (String × Nat))
    (h : k ∉ acc.map Prod.fst) :
    (bumpCount k acc).map Prod.fst = acc.map Prod.fst ++ [k] := by
  induction acc with
  | nil => simp [bumpCount]
  | cons kc rest ih =>
    obtain ⟨k2, c⟩ := kc
    have hk : k2 ≠ k := by
      intro e
      exact h (by simp [e])
    have h2 : k ∉ rest.map Prod.fst := fun hm => h (by simp [hm])
    simp [bumpCount, hk, ih h2]

theorem lookupCount_bump_self (k : String) (acc : List (String × Nat)) :
    lookupCount k (bumpCount k acc) = lookupCount k acc + 1 := by
  induction acc with
  | nil => simp [bumpCount, lookupCount]
  | cons kc rest ih =>
    obtain ⟨k2, c⟩ := kc
    by_cases hk : k2 = k
    · simp [bumpCount, lookupCount, hk]
    · simp [bumpCount, lookupCount, hk, ih]

theorem lookupCount_bump_other (k v : String) (acc : List (String × Nat)) (hkv : v ≠ k) :
    lookupCount k (bumpCount v acc) = lookupCount k acc := by
  induction acc with
  | nil => simp [bumpCount, lookupCount, hkv]
  | cons kc rest ih =>
    obtain ⟨k2, c⟩ := kc
    by_cases hk : k2 = v
    · subst hk
      simp [bumpCount, lookupCount, hkv]
    · simp [bumpCount, lookupCount, hk, ih]

theorem lookupCount_countsOf_aux (k : String) :
    ∀ (vals : List String) (acc : List (String × Nat)),
      lookupCount k (vals.foldl (fun a v => bumpCount v a) acc)
        = lookupCount k acc + vals.count k := by
  intro vals
  induction vals with
  | nil => simp [List.count_nil]
  | cons v rest ih =>
    intro acc
    rw [List.foldl_cons, ih]
    by_cases hv : v = k
    · subst hv
      rw [lookupCount_bump_self]
      simp [List.count_cons]
      omega
    · rw [lookupCount_bump_other k v acc hv]
      simp [List.count_cons, hv]

theorem lookupCount_countsOf (k : String) (vals : List String) :
    lookupCount k (countsOf vals) = vals.count k := by
  simpa [countsOf, lookupCount] using lookupCount_countsOf_aux k vals []

theorem countsOf_keys_aux :
    ∀ (vals : List String) (acc : List (String × Nat)),
      (vals.foldl (fun a v => bumpCount v a) acc).map Prod.fst
        = acc.map Prod.fst ++ dedupFAux (acc.map Prod.fst) vals := by
  intro vals
  induction vals with
  | nil => simp [dedupFAux]
  | cons v rest ih =>
    intro acc
    rw [List.foldl_cons, ih]
    by_cases hv : v ∈ acc.map Prod.fst
    · rw [bumpCount_keys_mem v acc hv, dedupFAux, if_pos hv]
    · rw [bumpCount_keys_new v acc hv, dedupFAux, if_neg hv, List.append_assoc]
      refine congrArg _ ?_
      have : dedupFAux (acc.map Prod.fst ++ [v]) rest = dedupFAux (v :: acc.map Prod.fst) rest :=
        dedupFAux_congr rest _ _ (fun a => by simp [List.mem_cons, List.mem_append, or_comm])
      simp [this]

theorem countsOf_keys (vals : List String) :
    (countsOf vals).map Prod.fst = dedupF vals := by
  simpa [countsOf, dedupF] using countsOf_keys_aux vals []

theorem countsOf_keys_nodup (vals : List String) :
    ((countsOf vals).map Prod.fst).Nodup := by
  rw [countsOf_keys]
  exact nodup_dedupF vals

theorem mem_lookup_of_keys_nodup (k : String) (c : Nat) :
    ∀ counts : List (String × Nat), (counts.map Prod.fst).Nodup →
      (k, c) ∈ counts → lookupCount k counts = c := by
  intro counts
  induction counts with
  | nil => simp
  | cons kc rest ih =>
    obtain ⟨k2, c2⟩ := kc
    intro hnd hmem
    rcases List.mem_cons.mp hmem with heq | hmem2
    · cases heq
      simp [lookupCount]
    · have hk2 : k2 ≠ k := by
        rintro rfl
        have : k2 ∈ rest.map Prod.fst := List.mem_map_of_mem Prod.fst hmem2
        exact (List.nodup_cons.mp (by simpa using hnd)).1 this
      rw [lookupCount, if_neg hk2]
      exact ih (List.nodup_cons.mp (by simpa using hnd)).2 hmem2

theorem countsOf_mem_count (k : String) (c : Nat) (vals : List String)
    (h : (k, c) ∈ countsOf vals) : c = vals.count k := by
  rw [← lookupCount_countsOf]
  exact (mem_lookup_of_keys_nodup k c (countsOf vals) (countsOf_keys_nodup vals) h).symm

theorem countsOf_pos :
    ∀ (vals : List String) (acc : List (String × Nat)),
      (∀ kc ∈ acc, 0 < kc.2) → ∀ kc ∈ vals.foldl (fun a v => bumpCount v a) acc, 0 < kc.2 := by
  have hbump : ∀ (v : String) (acc : List (String × Nat)), (∀ kc ∈ acc, 0 < kc.2) →
      ∀ kc ∈ bumpCount v acc, 0 < kc.2 := by
    intro v acc
    induction acc with
    | nil => intro _ kc h; simp only [bumpCount, List.mem_singleton] at h; simp [h]
    | cons kc0 rest ih =>
      obtain ⟨k2, c2⟩ := kc0
      intro hacc kc hmem
      by_cases hk : k2 = v
      · rw [bumpCount, if_pos hk] at hmem
        rcases List.mem_cons.mp hmem with rfl | hmem2
        · simp
        · exact hacc kc (List.mem_cons_of_mem _ hmem2)
      · rw [bumpCount, if_neg hk] at hmem
        rcases List.mem_cons.mp hmem with rfl | hmem2
        · exact hacc (k2, c2) (List.mem_cons_self _ _)
        · exact ih (fun x hx => hacc x (List.mem_cons_of_mem _ hx)) kc hmem2
  intro vals
  induction vals with
  | nil => intro acc hacc; simpa using hacc
  | cons v rest ih =>
    intro acc hacc kc hmem
    rw [List.foldl_cons] at hmem
    exact ih (bumpCount v acc) (hbump v acc hacc) kc hmem

theorem countsOf_replicate (v : String) (n : Nat) (hn : 0 < n) :
    countsOf (List.replicate n v) = [(v, n)] := by
  have key : ∀ m c, (List.replicate m v).foldl (fun a x => bumpCount x a) [(v, c)] = [(v, c + m)] := by
    intro m
    induction m with
    | zero => simp
    | succ k ih =>
      intro c
      rw [List.replicate_succ, List.foldl_cons]
      have : bumpCount v [(v, c)] = [(v, c + 1)] := by simp [bumpCount]
      rw [this, ih]
      ring_nf
  obtain ⟨m, rfl⟩ : ∃ m, n = m + 1 := ⟨n - 1, by omega⟩
  rw [List.replicate_succ, countsOf, List.foldl_cons]
  have h0 : bumpCount v [] = [(v, 1)] := rfl
  rw [h0, key m 1]
  ring_nf

/-! ### The Album entity (`modules/model_album.py`) -/

/-- The attributes of `Album.__init__` in `modules/model_album.py`. -/
structure Album where
  name : String
  album_artist : String
  artists : List String
  release_year : Int
  play_count : Nat
  songs : List Song
  path : String
  cover_art : String
  album_path : String
  loudness : ℚ
  peak : ℚ
  hash : String
deriving DecidableEq, Repr

/-- `Album.__init__`: everything empty except the path-derived hash. -/
def Album.init (album_path : String) : Album where
  name := ""
  album_artist := ""
  artists := []
  release_year := 0
  play_count := 0
  songs := []
  path := ""
  cover_art := ""
  album_path := album_path
  loudness := 0
  peak := 0
  hash := sha256_hex album_path

/-- Values of a string field over the songs whose value is truthy and not
equal to "unknown" case-insensitively, in song order. -/
def nonUnknownVals (f : Song → String) (l : List Song) : List String :=
  (l.filter (fun s => !(f s == "") && !(pyLower (f s) == "unknown"))).map f

/-- The album values counted by `_retag_from_songs`. -/
def nonUnknownAlbums (l : List Song) : List String := nonUnknownVals Song.album l

/-- The album-artist values counted by `_retag_from_songs`. -/
def nonUnknownArtists (l : List Song) : List String := nonUnknownVals Song.album_artist l

/-- The first loop of `_retag_from_songs` verbatim, including the source slip
`count = max_count` (the loop variable is reassigned and discarded, so
`max_count` stays at its initial value). -/
def mostCommonLoop : List (String × Nat) → Nat → String → String
  | [], _, name => name
  | (k, c) :: rest, maxc, name =>
    if maxc < c then mostCommonLoop rest maxc k else mostCommonLoop rest maxc name

/-- The `if count == len(self.songs): self.name = name` loop. -/
def unanimousLoop (n : Nat) : List (String × Nat) → String → String
  | [], v => v
  | (k, c) :: rest, v => if c = n then unanimousLoop n rest k else unanimousLoop n rest v

/-- The artist loop: collect unseen artists into `self.artists` and set
`self.album_artist` on a count equal to the number of songs. -/
def artistLoop (n : Nat) : List (String × Nat) → List String → String → List String × String
  | [], arts, aa => (arts, aa)
  | (k, c) :: rest, arts, aa =>
    let arts2 := if k ∈ arts then arts else arts ++ [k]
    if c = n then artistLoop n rest arts2 k else artistLoop n rest arts2 aa

/-- The album name `_retag_from_songs` computes: the first loop (with the
`count = max_count` slip) followed by the unanimity override loop. -/
def retagName (songs : List Song) (name0 : String) : String :=
  unanimousLoop songs.length (countsOf (nonUnknownAlbums songs))
    (mostCommonLoop (countsOf (nonUnknownAlbums songs)) 0 name0)

/-- The artist loop of `_retag_from_songs`: contributing-artist list and the
pre-default album artist. -/
def retagArtists (songs : List Song) (arts0 : List String) (aa0 : String) :
    List String × String :=
  artistLoop songs.length (countsOf (nonUnknownArtists songs)) arts0 aa0

/-- The album artist after the "Various Artists" default. -/
def retagAlbumArtist (songs : List Song) (arts0 : List String) (aa0 : String) : String :=
  if (retagArtists songs arts0 aa0).2 = "" ∨ pyLower (retagArtists songs arts0 aa0).2 = "unknown"
  then "Various Artists" else (retagArtists songs arts0 aa0).2

/-- `max([song.release_year for song in songs if song.release_year] + [year0])`. -/
def retagYear (songs : List Song) (y0 : Int) : Int :=
  ((songs.filter (fun s => !(s.release_year == 0))).map Song.release_year).foldl max y0

/-- Mean loudness of songs with truthy loudness, default −6. -/
def retagLoudness (songs : List Song) : ℚ :=
  if (songs.filter (fun s => !(s.loudness == 0))).map Song.loudness = [] then -6
  else (((songs.filter (fun s => !(s.loudness == 0))).map Song.loudness).sum
    / ((songs.filter (fun s => !(s.loudness == 0))).map Song.loudness).length : ℚ)

/-- `max(peak_values) if peak_values else 0` over `(song.peak or 0)` values
(`x or 0` equals `x` for every float `x`). -/
def retagPeak (songs : List Song) : ℚ :=
  match songs.map Song.peak with
  | [] => 0
  | x :: xs => xs.foldl max x

/-- `Album._retag_from_songs` from `modules/model_album.py`, assembled from
the loop helpers above. -/
def Album._retag_from_songs (a : Album) : Album :=
  { a with play_count := (a.songs.map Song.play_count).sum,
           name := retagName a.songs a.name,
           artists := (retagArtists a.songs a.artists a.album_artist).1,
           album_artist := retagAlbumArtist a.songs a.artists a.album_artist,
           release_year := retagYear a.songs a.release_year,
           loudness := retagLoudness a.songs,
           peak := retagPeak a.songs }

/-- Stable insertion of a song after all songs with a (disc, track) key less
than or equal to its own. -/
def insertSong (x : Song) : List Song → List Song
  | [] => [x]
  | y :: ys =>
    if y.disc_number < x.disc_number ∨
        (y.disc_number = x.disc_number ∧ y.track_number ≤ x.track_number) then
      y :: insertSong x ys
    else x :: y :: ys

/-- `Album._sort_by_track_number`: Python `list.sort` is stable on the
`(disc_number, track_number)` key; modelled by stable insertion sort. -/
def sortSongs (l : List Song) : List Song :=
  l.foldl (fun acc x => insertSong x acc) []

/-- `Album.add_song`: append the song, adopt its cover art when the album has
none, recompute the derived fields, re-sort by (disc, track). -/
def Album.add_song (a : Album) (s : Song) : Album :=
  let a1 := { a with songs := a.songs ++ [s],
                     cover_art := if s.cover_art ≠ "" ∧ a.cover_art = "" then s.cover_art
                                  else a.cover_art }
  let a2 := Album._retag_from_songs a1
  { a2 with songs := sortSongs a2.songs }

/-! ### Derived-field characterization lemmas for `_retag_from_songs` -/

theorem getLast?_getD_cons {α : Type} (k d : α) (ks : List α) :
    ((k :: ks).getLast?).getD d = (ks.getLast?).getD k := by
  cases ks with
  | nil => rfl
  | cons b bs =>
    cases h : (b :: bs).getLast? with
    | none => simp at h
    | some y => simp [List.getLast?_cons_cons, h]

theorem mostCommonLoop_spec :
    ∀ (counts : List (String × Nat)) (name : String), (∀ kc ∈ counts, 0 < kc.2) →
      mostCommonLoop counts 0 name = ((counts.map Prod.fst).getLast?).getD name := by
  intro counts
  induction counts with
  | nil => intro name _; rfl
  | cons kc rest ih =>
    obtain ⟨k, c⟩ := kc
    intro name h
    have hc : 0 < c := h (k, c) (List.mem_cons_self _ _)
    rw [mostCommonLoop, if_pos hc, ih k (fun x hx => h x (List.mem_cons_of_mem _ hx)),
      List.map_cons]
    exact (getLast?_getD_cons k name (rest.map Prod.fst)).symm

theorem unanimousLoop_no_match (n : Nat) :
    ∀ (counts : List (String × Nat)) (v : String), (∀ kc ∈ counts, kc.2 ≠ n) →
      unanimousLoop n counts v = v := by
  intro counts
  induction counts with
  | nil => intro v _; rfl
  | cons kc rest ih =>
    obtain ⟨k, c⟩ := kc
    intro v h
    rw [unanimousLoop, if_neg (h (k, c) (List.mem_cons_self _ _))]
    exact ih v (fun x hx => h x (List.mem_cons_of_mem _ hx))

theorem artistLoop_snd_no_match (n : Nat) :
    ∀ (counts : List (String × Nat)) (arts : List String) (aa : String),
      (∀ kc ∈ counts, kc.2 ≠ n) → (artistLoop n counts arts aa).2 = aa := by
  intro counts
  induction counts with
  | nil => intro arts aa _; rfl
  | cons kc rest ih =>
    obtain ⟨k, c⟩ := kc
    intro arts aa h
    rw [artistLoop, if_neg (h (k, c) (List.mem_cons_self _ _))]
    exact ih _ aa (fun x hx => h x (List.mem_cons_of_mem _ hx))

/-- Unanimity of a non-"unknown" field value is equivalent to its count
reaching the number of songs. -/
theorem count_eq_len_iff_unanimous (f : Song → String) (l : List Song) (k : String)
    (hl : l ≠ []) :
    List.count k (nonUnknownVals f l) = l.length
      ↔ (k ≠ "" ∧ pyLower k ≠ "unknown" ∧ ∀ t ∈ l, f t = k) := by
  constructor
  · intro hcount
    have hvle : (nonUnknownVals f l).length ≤ l.length := by
      rw [nonUnknownVals, List.length_map]
      exact List.length_filter_le _ l
    have hcle : List.count k (nonUnknownVals f l) ≤ (nonUnknownVals f l).length :=
      List.count_le_length k _
    have hvlen : (nonUnknownVals f l).length = l.length := le_antisymm hvle (by omega)
    have hflen : (l.filter (fun s => !(f s == "") && !(pyLower (f s) == "unknown"))).length
        = l.length := by
      rw [nonUnknownVals, List.length_map] at hvlen
      exact hvlen
    have hfilter : l.filter (fun s => !(f s == "") && !(pyLower (f s) == "unknown")) = l :=
      (List.filter_sublist l).eq_of_length hflen
    have hall : ∀ b ∈ nonUnknownVals f l, k = b :=
      List.count_eq_length.mp (by rw [hvlen]; exact hcount)
    have hvals : ∀ t ∈ l, f t = k := by
      intro t ht
      exact (hall (f t) (by rw [nonUnknownVals, hfilter]; exact List.mem_map_of_mem f ht)).symm
    obtain ⟨t0, ht0⟩ := List.exists_mem_of_ne_nil l hl
    have hp : !(f t0 == "") && !(pyLower (f t0) == "unknown") := by
      have : t0 ∈ l.filter (fun s => !(f s == "") && !(pyLower (f s) == "unknown")) := by
        rw [hfilter]; exact ht0
      exact (List.mem_filter.mp this).2
    rw [hvals t0 ht0] at hp
    simp only [Bool.and_eq_true, Bool.not_eq_true', beq_eq_false_iff_ne] at hp
    exact ⟨hp.1, hp.2, hvals⟩
  · rintro ⟨hk1, hk2, hall⟩
    have hp : ∀ t ∈ l, (!(f t == "") && !(pyLower (f t) == "unknown")) = true := by
      intro t ht
      rw [hall t ht]
      simp [hk1, hk2]
    have hfilter : l.filter (fun s => !(f s == "") && !(pyLower (f s) == "unknown")) = l :=
      List.filter_eq_self.mpr hp
    have hrep : nonUnknownVals f l = List.replicate l.length k := by
      rw [nonUnknownVals, hfilter]
      refine List.eq_replicate_iff.mpr ⟨by rw [List.length_map], ?_⟩
      intro b hb
      obtain ⟨t, ht, rfl⟩ := List.mem_map.mp hb
      exact hall t ht
    rw [hrep, List.count_replicate_self]

/-- If some entry of the counting dict reaches the number of songs, the field
is unanimous on that key. -/
theorem counts_entry_unanimous (f : Song → String) (l : List Song) (k : String) (c : Nat)
    (hl : l ≠ []) (hmem : (k, c) ∈ countsOf (nonUnknownVals f l)) (hc : c = l.length) :
    k ≠ "" ∧ pyLower k ≠ "unknown" ∧ ∀ t ∈ l, f t = k := by
  have := countsOf_mem_count k c _ hmem
  exact (count_eq_len_iff_unanimous f l k hl).mp (by rw [← this, hc])

/-- Under a unanimous non-"unknown" value the counting dict is the single
entry `(v, |l|)`. -/
theorem countsOf_unanimous (f : Song → String) (l : List Song) (v : String)
    (hl : l ≠ []) (hv1 : v ≠ "") (hv2 : pyLower v ≠ "unknown") (hall : ∀ t ∈ l, f t = v) :
    countsOf (nonUnknownVals f l) = [(v, l.length)] := by
  have hp : ∀ t ∈ l, (!(f t == "") && !(pyLower (f t) == "unknown")) = true := by
    intro t ht
    rw [hall t ht]
    simp [hv1, hv2]
  have hfilter : l.filter (fun s => !(f s == "") && !(pyLower (f s) == "unknown")) = l :=
    List.filter_eq_self.mpr hp
  have hrep : nonUnknownVals f l = List.replicate l.length v := by
    rw [nonUnknownVals, hfilter]
    refine List.eq_replicate_iff.mpr ⟨by rw [List.length_map], ?_⟩
    intro b hb
    obtain ⟨t, ht, rfl⟩ := List.mem_map.mp hb
    exact hall t ht
  rw [hrep, countsOf_replicate v l.length (by
    cases l with
    | nil => exact absurd rfl hl
    | cons a as => simp)]

theorem foldl_max_spec {α : Type} [LinearOrder α] :
    ∀ (L : List α) (d : α),
      d ≤ L.foldl max d ∧ (∀ x ∈ L, x ≤ L.foldl max d) ∧
        (L.foldl max d = d ∨ L.foldl max d ∈ L) := by
  intro L
  induction L with
  | nil => intro d; exact ⟨le_refl d, by simp, Or.inl rfl⟩
  | cons x xs ih =>
    intro d
    obtain ⟨h1, h2, h3⟩ := ih (max d x)
    refine ⟨le_trans (le_max_left d x) h1, ?_, ?_⟩
    · intro y hy
      rcases List.mem_cons.mp hy with rfl | hy2
      · exact le_trans (le_max_right d y) h1
      · exact h2 y hy2
    · rw [List.foldl_cons]
      rcases h3 with heq | hmem
      · rcases max_choice d x with hmx | hmx
        · exact Or.inl (by rw [heq, hmx])
        · exact Or.inr (by rw [heq, hmx]; exact List.mem_cons_self x xs)
      · exact Or.inr (List.mem_cons_of_mem x hmem)

theorem countsOf_all_pos (vals : List String) : ∀ kc ∈ countsOf vals, 0 < kc.2 := by
  intro kc h
  exact countsOf_pos vals [] (by simp) kc h

theorem retagName_unanimous (l : List Song) (name0 v : String) (hne : l ≠ [])
    (hv1 : v ≠ "") (hv2 : pyLower v ≠ "unknown") (hall : ∀ t ∈ l, t.album = v) :
    retagName l name0 = v := by
  have hc : countsOf (nonUnknownAlbums l) = [(v, l.length)] := by
    rw [nonUnknownAlbums]
    exact countsOf_unanimous Song.album l v hne hv1 hv2 hall
  have hn : 0 < l.length := List.length_pos.mpr hne
  rw [retagName, hc, mostCommonLoop, if_pos hn, mostCommonLoop, unanimousLoop, if_pos rfl,
    unanimousLoop]

theorem retagName_no_unanimous (l : List Song) (name0 : String) (hne : l ≠ [])
    (hnou : ¬ ∃ v, v ≠ "" ∧ pyLower v ≠ "unknown" ∧ ∀ t ∈ l, t.album = v) :
    retagName l name0 = ((dedupF (nonUnknownAlbums l)).getLast?).getD name0 := by
  have hnomatch : ∀ kc ∈ countsOf (nonUnknownAlbums l), kc.2 ≠ l.length := by
    rintro ⟨k, c⟩ hmem hc
    exact hnou ⟨k, counts_entry_unanimous Song.album l k c hne (by rwa [← nonUnknownAlbums]) hc⟩
  rw [retagName, unanimousLoop_no_match _ _ _ hnomatch,
    mostCommonLoop_spec _ _ (countsOf_all_pos _), countsOf_keys]

theorem retagAlbumArtist_unanimous (l : List Song) (arts0 : List String) (aa0 v : String)
    (hne : l ≠ []) (hv1 : v ≠ "") (hv2 : pyLower v ≠ "unknown")
    (hall : ∀ t ∈ l, t.album_artist = v) :
    retagAlbumArtist l arts0 aa0 = v := by
  have hc : countsOf (nonUnknownArtists l) = [(v, l.length)] := by
    rw [nonUnknownArtists]
    exact countsOf_unanimous Song.album_artist l v hne hv1 hv2 hall
  have hsnd : (retagArtists l arts0 aa0).2 = v := by
    rw [retagArtists, hc, artistLoop, if_pos rfl, artistLoop]
  rw [retagAlbumArtist, hsnd, if_neg (by push_neg; exact ⟨hv1, hv2⟩)]

theorem retagAlbumArtist_no_unanimous (l : List Song) (arts0 : List String) (aa0 : String)
    (hne : l ≠ [])
    (hnou : ¬ ∃ v, v ≠ "" ∧ pyLower v ≠ "unknown" ∧ ∀ t ∈ l, t.album_artist = v) :
    retagAlbumArtist l arts0 aa0
      = if aa0 = "" ∨ pyLower aa0 = "unknown" then "Various Artists" else aa0 := by
  have hnomatch : ∀ kc ∈ countsOf (nonUnknownArtists l), kc.2 ≠ l.length := by
    rintro ⟨k, c⟩ hmem hc
    exact hnou ⟨k, counts_entry_unanimous Song.album_artist l k c hne
      (by rwa [← nonUnknownArtists]) hc⟩
  have hsnd : (retagArtists l arts0 aa0).2 = aa0 :=
    artistLoop_snd_no_match _ _ _ _ hnomatch
  rw [retagAlbumArtist, hsnd]

/-- C4, amended: after `add_song` the album name is the unanimous
non-"unknown" album value when one exists and otherwise the LAST distinct
non-"unknown" album value in first-occurrence order (the most-frequent loop
never updates its running maximum), falling back to the previous name when
every song is unknown; the album artist is the unanimous non-"unknown" value
when one exists and otherwise keeps the previous album artist, defaulting to
"Various Artists" only when that previous value is absent or unknown; the
release year is the maximum of the previous value and the songs' nonzero
years; the loudness is the arithmetic mean over songs with nonzero loudness
(−6 when there are none); the peak is the maximum over the songs' peaks.
The claim's concrete three-song example does resolve to name "Y" and album
artist "X". -/
theorem C4_album_derived_fields (a : Album) (s : Song) :
    ((∀ v, v ≠ "" → pyLower v ≠ "unknown" → (∀ t ∈ a.songs ++ [s], t.album = v) →
        (Album.add_song a s).name = v)
      ∧ (¬ (∃ v, v ≠ "" ∧ pyLower v ≠ "unknown" ∧ ∀ t ∈ a.songs ++ [s], t.album = v) →
        (Album.add_song a s).name
          = ((dedupF (nonUnknownAlbums (a.songs ++ [s]))).getLast?).getD a.name))
    ∧ ((∀ v, v ≠ "" → pyLower v ≠ "unknown" → (∀ t ∈ a.songs ++ [s], t.album_artist = v) →
        (Album.add_song a s).album_artist = v)
      ∧ (¬ (∃ v, v ≠ "" ∧ pyLower v ≠ "unknown" ∧ ∀ t ∈ a.songs ++ [s], t.album_artist = v) →
        (Album.add_song a s).album_artist
          = if a.album_artist = "" ∨ pyLower a.album_artist = "unknown" then "Various Artists"
            else a.album_artist))
    ∧ (a.release_year ≤ (Album.add_song a s).release_year
      ∧ (∀ t ∈ a.songs ++ [s], t.release_year ≤ (Album.add_song a s).release_year ∨
          t.release_year = 0)
      ∧ ((Album.add_song a s).release_year = a.release_year
          ∨ ∃ t ∈ a.songs ++ [s], (Album.add_song a s).release_year = t.release_year))
    ∧ (((a.songs ++ [s]).filter (fun t => !(t.loudness == 0)) = [] →
        (Album.add_song a s).loudness = -6)
      ∧ (((a.songs ++ [s]).filter (fun t => !(t.loudness == 0))).map Song.loudness ≠ [] →
        (Album.add_song a s).loudness
          = (((a.songs ++ [s]).filter (fun t => !(t.loudness == 0))).map Song.loudness).sum
            / (((a.songs ++ [s]).filter (fun t => !(t.loudness == 0))).map Song.loudness).length))
    ∧ ((∃ t ∈ a.songs ++ [s], (Album.add_song a s).peak = t.peak)
      ∧ ∀ t ∈ a.songs ++ [s], t.peak ≤ (Album.add_song a s).peak) := by
  have hne : a.songs ++ [s] ≠ [] := by simp
  refine ⟨⟨?_, ?_⟩, ⟨?_, ?_⟩, ⟨?_, ?_, ?_⟩, ⟨?_, ?_⟩, ?_, ?_⟩
  · intro v hv1 hv2 hall
    exact retagName_unanimous (a.songs ++ [s]) a.name v hne hv1 hv2 hall
  · intro hnou
    exact retagName_no_unanimous (a.songs ++ [s]) a.name hne hnou
  · intro v hv1 hv2 hall
    exact retagAlbumArtist_unanimous (a.songs ++ [s]) a.artists a.album_artist v hne hv1 hv2 hall
  · intro hnou
    exact retagAlbumArtist_no_unanimous (a.songs ++ [s]) a.artists a.album_artist hne hnou
  · exact (foldl_max_spec _ a.release_year).1
  · intro t ht
    by_cases hz : t.release_year = 0
    · exact Or.inr hz
    · refine Or.inl ((foldl_max_spec _ a.release_year).2.1 t.release_year ?_)
      refine List.mem_map_of_mem Song.release_year ?_
      rw [List.mem_filter]
      exact ⟨ht, by simpa using hz⟩
  · rcases (foldl_max_spec (((a.songs ++ [s]).filter
        (fun t => !(t.release_year == 0))).map Song.release_year) a.release_year).2.2 with h | h
    · exact Or.inl h
    · obtain ⟨t, ht, hteq⟩ := List.mem_map.mp h
      exact Or.inr ⟨t, (List.mem_filter.mp ht).1, hteq.symm⟩
  · intro hnil
    show retagLoudness (a.songs ++ [s]) = -6
    rw [retagLoudness, if_pos (by rw [hnil]; rfl)]
  · intro hnn
    show retagLoudness (a.songs ++ [s]) = _
    rw [retagLoudness, if_neg hnn]
  · show ∃ t ∈ a.songs ++ [s], retagPeak (a.songs ++ [s]) = t.peak
    rw [retagPeak]
    cases hmap : (a.songs ++ [s]).map Song.peak with
    | nil => exact absurd (List.map_eq_nil_iff.mp hmap) hne
    | cons x xs =>
      rcases (foldl_max_spec xs x).2.2 with h | h
      · have hx : x ∈ (a.songs ++ [s]).map Song.peak := by rw [hmap]; exact List.mem_cons_self x xs
        obtain ⟨t, ht, hteq⟩ := List.mem_map.mp hx
        refine ⟨t, ht, ?_⟩
        show List.foldl max x xs = t.peak
        rw [h, hteq]
      · have hx : xs.foldl max x ∈ (a.songs ++ [s]).map Song.peak := by
          rw [hmap]; exact List.mem_cons_of_mem x h
        obtain ⟨t, ht, hteq⟩ := List.mem_map.mp hx
        refine ⟨t, ht, ?_⟩
        show List.foldl max x xs = t.peak
        exact hteq.symm
  · intro t ht
    show t.peak ≤ retagPeak (a.songs ++ [s])
    rw [retagPeak]
    cases hmap : (a.songs ++ [s]).map Song.peak with
    | nil => exact absurd (List.map_eq_nil_iff.mp hmap) hne
    | cons x xs =>
      show t.peak ≤ List.foldl max x xs
      have hmem : t.peak ∈ x :: xs := by rw [← hmap]; exact List.mem_map_of_mem Song.peak ht
      rcases List.mem_cons.mp hmem with heq | hmem2
      · rw [heq]; exact (foldl_max_spec xs x).1
      · exact (foldl_max_spec xs x).2.1 t.peak hmem2

/-- Modelled from the claim's words: the most frequent value in a counting
dict (first maximum wins), used only to state what the claim predicts. -/
def specMostFrequent (vals : List String) : Option (String × Nat) :=
  (countsOf vals).foldl
    (fun best kc => match best with
      | none => some kc
      | some b => if b.2 < kc.2 then some kc else best) none

/-- First song of the counterexample album: album Z, artist B. -/
def songZ1 : Song := { song0 with album := "Z", album_artist := "B", title := "t1",
                                  track_number := 1 }

/-- Second song: album Z, artist A. -/
def songZ2 : Song := { song0 with album := "Z", album_artist := "A", title := "t2",
                                  track_number := 2 }

/-- Third song: album Y, artist A. -/
def songY3 : Song := { song0 with album := "Y", album_artist := "A", title := "t3",
                                  track_number := 3 }

/-- The album obtained by adding the three counterexample songs in order. -/
def albZfinal : Album :=
  (((Album.init "/m/z").add_song songZ1).add_song songZ2).add_song songY3

/-- C4, counterexample to the claim as stated: with albums Z, Z, Y and
artists B, A, A the most frequent non-unknown album value is Z and the most
frequent artist is A, yet the code resolves the album name to Y (the last
distinct value) and the album artist to B (the sticky previous value). -/
theorem C4_counterexample :
    (specMostFrequent (nonUnknownAlbums albZfinal.songs)).map Prod.fst = some "Z"
    ∧ albZfinal.name = "Y" ∧ ("Y" : String) ≠ "Z"
    ∧ songZ1.album ≠ songY3.album
    ∧ songZ1.album_artist ≠ songZ2.album_artist
    ∧ (specMostFrequent (nonUnknownArtists albZfinal.songs)).map Prod.fst = some "A"
    ∧ albZfinal.album_artist = "B" ∧ ("B" : String) ≠ "A" := by
  decide

/-- First song of the claim's example: album Y, artist X. -/
def songX1 : Song := { song0 with album := "Y", album_artist := "X", title := "a1",
                                  track_number := 1 }

/-- Second song of the claim's example. -/
def songX2 : Song := { song0 with album := "Y", album_artist := "X", title := "a2",
                                  track_number := 2 }

/-- Third song of the claim's example: album Unknown, artist X. -/
def songX3 : Song := { song0 with album := "Unknown", album_artist := "X", title := "a3",
                                  track_number := 3 }

/-- The claim's example album after the first two songs. -/
def albX : Album := ((Album.init "/m/x").add_song songX1).add_song songX2

/-- Closed instance of `C4_album_derived_fields` at the claim's concrete
example: the album name resolves to Y (no unanimity, Y is the only distinct
non-unknown value) and the album artist to the unanimous X. -/
theorem C4_album_derived_fields_witness :
    (Album.add_song albX songX3).name = "Y" ∧ (Album.add_song albX songX3).album_artist = "X" := by
  constructor
  · have h := (C4_album_derived_fields albX songX3).1.2
    rw [h ?hno]
    case hno =>
      rintro ⟨v, _, hv2, hall⟩
      have h3 := hall songX3 (by decide)
      exact hv2 (by rw [← h3]; decide)
    decide
  · exact (C4_album_derived_fields albX songX3).2.1.1 "X" (by decide) (by decide) (by decide)

/-! ### The reconciliation engine (`modules/library_utils.py`, `scan_library`) -/

/-- Python exceptions that the modelled code can raise. -/
inductive PyErr
  | valueError
  | attributeError
  | stopIteration
  | indexError
deriving DecidableEq, Repr

/-- The metadata-extraction result for one file: the tag-derived fields of
`Song.__init__` (tag reading itself is the external `analyze` collaborator,
out of scope per the spec; artist splitting included in its output). -/
structure SongTags where
  title : String
  album : String
  album_artist : String
  other_artists : List String
  genres : List String
  track_number : Nat
  disc_number : Nat
  duration : Nat
  release_year : Int
  lyrics : String
  explicit : Bool
  bitrate : Nat
  format : String
  file_size : Nat
deriving DecidableEq, Repr

/-- External collaborators of one scan: tag extraction per path, the clock
(`datetime.now().isoformat()`), and cover discovery. -/
structure ScanEnv where
  tags : String → SongTags
  now : String
  find_cover : String → String

/-- The field assignments of `Song.__init__` before `get_hash` caches the
identity hash. -/
def mkSongPre (env : ScanEnv) (path : String) : Song :=
  let t := env.tags path
  { file_path := path
    track_number := t.track_number
    disc_number := t.disc_number
    title := t.title
    album_artist := t.album_artist
    other_artists := t.other_artists
    album := t.album
    duration := t.duration
    release_year := t.release_year
    genres := t.genres
    play_count := 0
    last_played := env.now
    lyrics := t.lyrics
    explicit := t.explicit
    bitrate := t.bitrate
    format := t.format
    file_size := t.file_size
    cover_art := env.find_cover path
    loudness := 0
    peak := 0
    lastfm_playcount := 0
    lastfm_tags := []
    hash := ""
    popularity := none }

/-- `Song(song_path, skip_analysis=True)`: build a song from the file's tags,
leaving loudness/peak at 0 and computing the identity hash. -/
def mkSong (env : ScanEnv) (path : String) : Song :=
  { mkSongPre env path with hash := sha256_hex (mkSongPre env path).hashInput }

/-- State of the path-processing loop of `scan_library`. -/
structure DiffState where
  existing : List Song
  updated : List Song
  newSongs : List Song
  wasUpdated : Bool
deriving DecidableEq, Repr

/-- The `for existing_song in existing_songs: if new_song.get_hash() ==
existing_song.get_hash()` search: returns the first hash match (with its own
hash materialized) and the existing list with that match removed (earlier
entries keep any materialized hash). -/
def findByHash (h : String) : List Song → Option Song × List Song
  | [] => (none, [])
  | s :: rest =>
    if (Song.get_hash s).1 = h then (some (Song.get_hash s).2, rest)
    else
      let r := findByHash h rest
      (r.1, (Song.get_hash s).2 :: r.2)

/-- One iteration of the path loop (lines 154-176 of `library_utils.py`). -/
def diffStep (env : ScanEnv) (existingPaths : List String) (st : DiffState) (path : String) :
    Except PyErr DiffState :=
  if path ∈ existingPaths then
    match st.existing.find? (fun s => s.file_path == path) with
    | some s => .ok { st with updated := st.updated ++ [s] }
    | none => .error .stopIteration
  else
    let ns := mkSong env path
    match findByHash (Song.get_hash ns).1 st.existing with
    | (some m, rest) =>
        .ok { existing := rest, updated := st.updated ++ [{ m with file_path := ns.file_path }],
              newSongs := st.newSongs, wasUpdated := true }
    | (none, rest) =>
        .ok { existing := rest, updated := st.updated ++ [ns],
              newSongs := st.newSongs ++ [ns], wasUpdated := true }

/-- The path loop, one `diffStep` per discovered path. -/
def processPaths (env : ScanEnv) (existingPaths : List String) :
    List String → DiffState → Except PyErr DiffState
  | [], st => .ok st
  | p :: ps, st => do
    let st2 ← diffStep env existingPaths st p
    processPaths env existingPaths ps st2

/-- The whole path loop; the known-path set is computed once up front. -/
def runDiff (env : ScanEnv) (existing : List Song) (paths : List String) :
    Except PyErr DiffState :=
  processPaths env (existing.map Song.file_path) paths ⟨existing, [], [], false⟩

/-- Python `list.remove`: drop the first equal element, `ValueError` if none. -/
def removeFirst (x : Song) : List Song → Except PyErr (List Song)
  | [] => .error .valueError
  | y :: ys =>
    if y = x then .ok ys
    else do
      let r ← removeFirst x ys
      .ok (y :: r)

/-- The deletion loop (lines 182-187): every remaining persisted song whose
path was not observed on disk is removed from `updated_songs` via
`list.remove`. -/
def deleteLoop (paths : List String) :
    List Song → List Song → Bool → Except PyErr (List Song × Bool)
  | [], updated, w => .ok (updated, w)
  | s :: rest, updated, w =>
    if s.file_path ∈ paths then deleteLoop paths rest updated w
    else do
      let u ← removeFirst s updated
      deleteLoop paths rest u true

/-- Result of the diff phase: the reconciled song list, the dirty flag that
triggers the line-190 persist, and the loudness-analysis work list
(`[s for s in updated_songs if not s.loudness]`, line 194). -/
structure DiffResult where
  updated : List Song
  wasUpdated : Bool
  toAnalyze : List Song
deriving DecidableEq, Repr

/-- The diff phase of `scan_library` (load diff, deletion handling, analysis
selection). -/
def scan_diff (env : ScanEnv) (existing : List Song) (paths : List String) :
    Except PyErr DiffResult := do
  let st ← runDiff env existing paths
  let res ← deleteLoop paths st.existing st.updated st.wasUpdated
  .ok ⟨res.1, res.2, res.1.filter (fun s => s.loudness == 0)⟩

/-- Reading `song.additional_data`: the `Song` class of `modules/model_song.py`
defines no such attribute (no `__init__` assignment, not in `to_dict` or
`from_dict`), so every access raises `AttributeError`. -/
def pyAdditionalData (_ : Song) : Except PyErr (List (String × String)) :=
  .error .attributeError

/-- Line 225: `[s for s in updated_songs if not s.lastfm_playcount and not
s.additional_data.get("lastfm_update", False)]`.  The attribute access is
reached only when the playcount is falsy. -/
def lastfmTargets : List Song → Except PyErr (List Song)
  | [] => .ok []
  | s :: rest =>
    if s.lastfm_playcount = 0 then do
      let d ← pyAdditionalData s
      let r ← lastfmTargets rest
      match d.find? (fun kv => kv.1 == "lastfm_update") with
      | none => .ok (s :: r)
      | some kv => .ok (if kv.2 = "" then s :: r else r)
    else lastfmTargets rest

/-- Line 231: `[s for s in updated_songs if not
s.additional_data.get("wiki_update", False)]` — the attribute is read for
every song. -/
def wikiTargets : List Song → Except PyErr (List Song)
  | [] => .ok []
  | s :: rest => do
    let d ← pyAdditionalData s
    let r ← wikiTargets rest
    match d.find? (fun kv => kv.1 == "wiki_update") with
    | none => .ok (s :: r)
    | some kv => .ok (if kv.2 = "" then s :: r else r)

/-- The song phases of `scan_library` up to the wiki-enrichment selection:
diff, deletion, loudness-analysis selection (the returned path list is what
would be submitted to the external analyzer), Last.fm selection, wiki
selection. -/
def scan_library_songs (env : ScanEnv) (existing : List Song) (paths : List String) :
    Except PyErr (List Song × List String × List Song) := do
  let r ← scan_diff env existing paths
  let lfm ← lastfmTargets r.updated
  let _ ← wikiTargets r.updated
  .ok (r.updated, r.toAnalyze.map Song.file_path, lfm)

/-- A persisted song whose file was deleted from disk:`/music/a.mp3` is not
among the scanned paths. -/
def songDeleted : Song :=
  { song0 with file_path := "/music/a.mp3", title := "gone", hash := "hash-gone",
               loudness := -9, lastfm_playcount := 3 }

/-- Any scan environment; the concrete claims below never read tags. -/
def envEmpty : ScanEnv := ⟨fun _ => ⟨"", "", "", [], [], 0, 0, 0, 0, "", false, 0, "", 0⟩, "", fun _ => ""⟩

/-- C2: evaluating the reconciliation at a catalog with one song and an empty
disk scan raises `ValueError` — the deleted song was never added to
`updated_songs`, so `updated_songs.remove(existing_song)` finds nothing.  The
claimed behaviour (drop the song, persist, complete normally) never happens. -/
theorem C2_deletion_crashes :
    scan_diff envEmpty [songDeleted] [] = .error .valueError ∧
    songDeleted.file_path ∉ ([] : List String) := by
  constructor
  · rfl
  · simp

/-- A fully enriched persisted song, as after a successful first scan. -/
def songEnriched : Song :=
  { song0 with file_path := "/music/b.mp3", title := "keep", hash := "hash-keep",
               loudness := -8, peak := -1, lastfm_playcount := 5,
               lastfm_tags := ["rock"], duration := 200 }

/-- C3: a second reconciliation over an unchanged filesystem and catalog gets
through the diff phase untouched (no dirty flag, nothing to analyze, no
Last.fm work) and then raises `AttributeError` in the wiki-enrichment
selection, because `Song` has no `additional_data` attribute; it never
reaches the point of persisting identical output. -/
theorem C3_second_run_crashes :
    scan_diff envEmpty [songEnriched] ["/music/b.mp3"]
      = .ok ⟨[songEnriched], false, []⟩
    ∧ lastfmTargets [songEnriched] = .ok []
    ∧ scan_library_songs envEmpty [songEnriched] ["/music/b.mp3"] = .error .attributeError := by
  refine ⟨rfl, rfl, rfl⟩

theorem ok_bind {α β : Type} (a : α) (f : α → Except PyErr β) :
    ((Except.ok a : Except PyErr α) >>= f) = f a := rfl

theorem hashInput_ne_empty (s : Song) : s.hashInput ≠ "" := by
  intro h
  have hd := congrArg String.data h
  simp [Song.hashInput, String.data_append] at hd

theorem mkSong_hash_ne (env : ScanEnv) (p : String) : (mkSong env p).hash ≠ "" := by
  show sha256_hex (mkSongPre env p).hashInput ≠ ""
  exact hashInput_ne_empty (mkSongPre env p)

theorem mkSong_path (env : ScanEnv) (p : String) : (mkSong env p).file_path = p := rfl

theorem get_hash_of_ne (s : Song) (h : s.hash ≠ "") : Song.get_hash s = (s.hash, s) := by
  rw [Song.get_hash, if_neg h]

theorem findByHash_none (h : String) :
    ∀ l : List Song, (∀ s ∈ l, s.hash ≠ "" ∧ s.hash ≠ h) → findByHash h l = (none, l) := by
  intro l
  induction l with
  | nil => intro _; rfl
  | cons s rest ih =>
    intro hl
    obtain ⟨hs1, hs2⟩ := hl s (List.mem_cons_self _ _)
    rw [findByHash, get_hash_of_ne s hs1]
    simp only [hs2, if_false]
    rw [ih (fun x hx => hl x (List.mem_cons_of_mem _ hx))]

theorem findByHash_found (h : String) (A : Song) (hA : A.hash = h) (hne : A.hash ≠ "") :
    ∀ E1 E2 : List Song, (∀ s ∈ E1, s.hash ≠ "" ∧ s.hash ≠ h) →
      findByHash h (E1 ++ A :: E2) = (some A, E1 ++ E2) := by
  intro E1
  induction E1 with
  | nil =>
    intro E2 _
    rw [List.nil_append, findByHash, get_hash_of_ne A hne]
    simp [hA]
  | cons s rest ih =>
    intro E2 hl
    obtain ⟨hs1, hs2⟩ := hl s (List.mem_cons_self _ _)
    rw [List.cons_append, findByHash, get_hash_of_ne s hs1]
    simp only [hs2, if_false]
    rw [ih E2 (fun x hx => hl x (List.mem_cons_of_mem _ hx))]
    rfl

theorem deleteLoop_no_deletions (paths : List String) :
    ∀ (rem u : List Song) (w : Bool), (∀ s ∈ rem, s.file_path ∈ paths) →
      deleteLoop paths rem u w = .ok (u, w) := by
  intro rem
  induction rem with
  | nil => intro u w _; rfl
  | cons s rest ih =>
    intro u w hl
    rw [deleteLoop, if_pos (hl s (List.mem_cons_self _ _))]
    exact ih u w (fun x hx => hl x (List.mem_cons_of_mem _ hx))

/-- Behaviour of a run of the path loop over a segment that contains no path
triggering a move: the current existing list is untouched, and every appended
song has an identity hash distinct from `H` and a file path among the scanned
paths. -/
theorem processPaths_segment (env : ScanEnv) (E : List Song) (L : List String) (H : String) :
    ∀ (M : List String) (Ecur u0 n0 : List Song) (w0 : Bool),
      (∀ s ∈ Ecur, s.hash ≠ "") →
      (∀ s ∈ Ecur, s.file_path ∈ L → s.hash ≠ H) →
      (∀ p ∈ M, p ∈ L) →
      (∀ p ∈ M, p ∈ E.map Song.file_path → ∃ s ∈ Ecur, s.file_path = p) →
      (∀ p ∈ M, p ∉ E.map Song.file_path →
        (mkSong env p).hash ≠ H ∧ ∀ s ∈ Ecur, (mkSong env p).hash ≠ s.hash) →
      ∃ u2 n2 w2,
        processPaths env (E.map Song.file_path) M ⟨Ecur, u0, n0, w0⟩
          = .ok ⟨Ecur, u0 ++ u2, n0 ++ n2, w2⟩
        ∧ (∀ s ∈ u2, (Song.get_hash s).1 ≠ H ∧ s.file_path ∈ L)
        ∧ (w0 = true → w2 = true) := by
  intro M
  induction M with
  | nil =>
    intro Ecur u0 n0 w0 _ _ _ _ _
    exact ⟨[], [], w0, by simp [processPaths], by simp, fun h => h⟩
  | cons p M ih =>
    intro Ecur u0 n0 w0 hHash hNoH hML hFind hNew
    by_cases hp : p ∈ E.map Song.file_path
    · obtain ⟨sF0, hsF0mem, hsF0path⟩ := hFind p (List.mem_cons_self _ _) hp
      have hsome : (Ecur.find? (fun s => s.file_path == p)).isSome := by
        rw [List.find?_isSome]
        exact ⟨sF0, hsF0mem, by simp [hsF0path]⟩
      obtain ⟨sF, hfound⟩ := Option.isSome_iff_exists.mp hsome
      have hsFmem : sF ∈ Ecur := List.mem_of_find?_eq_some hfound
      have hsFpath : sF.file_path = p := by
        have := List.find?_some hfound
        simpa using this
      have hstep : diffStep env (E.map Song.file_path) ⟨Ecur, u0, n0, w0⟩ p
          = .ok ⟨Ecur, u0 ++ [sF], n0, w0⟩ := by
        simp only [diffStep]
        rw [if_pos hp, hfound]
      obtain ⟨u2, n2, w2, hrun, hprops, hw⟩ :=
        ih Ecur (u0 ++ [sF]) n0 w0 hHash hNoH
          (fun q hq => hML q (List.mem_cons_of_mem _ hq))
          (fun q hq hq2 => hFind q (List.mem_cons_of_mem _ hq) hq2)
          (fun q hq hq2 => hNew q (List.mem_cons_of_mem _ hq) hq2)
      refine ⟨sF :: u2, n2, w2, ?_, ?_, hw⟩
      · rw [processPaths, hstep, ok_bind, hrun, List.append_assoc]
        rfl
      · intro s hs
        rcases List.mem_cons.mp hs with rfl | hs2
        · have h1 : s.hash ≠ "" := hHash s hsFmem
          rw [get_hash_of_ne s h1]
          exact ⟨hNoH s hsFmem (hsFpath ▸ hML p (List.mem_cons_self _ _)),
                 hsFpath ▸ hML p (List.mem_cons_self _ _)⟩
        · exact hprops s hs2
    · obtain ⟨hnsH, hnsAll⟩ := hNew p (List.mem_cons_self _ _) hp
      have hfb : findByHash (Song.get_hash (mkSong env p)).1 Ecur = (none, Ecur) := by
        rw [get_hash_of_ne _ (mkSong_hash_ne env p)]
        exact findByHash_none _ Ecur
          (fun s hs => ⟨hHash s hs, fun he => hnsAll s hs he.symm⟩)
      have hstep : diffStep env (E.map Song.file_path) ⟨Ecur, u0, n0, w0⟩ p
          = .ok ⟨Ecur, u0 ++ [mkSong env p], n0 ++ [mkSong env p], true⟩ := by
        simp only [diffStep]
        rw [if_neg hp, hfb]
      obtain ⟨u2, n2, w2, hrun, hprops, hw⟩ :=
        ih Ecur (u0 ++ [mkSong env p]) (n0 ++ [mkSong env p]) true hHash hNoH
          (fun q hq => hML q (List.mem_cons_of_mem _ hq))
          (fun q hq hq2 => hFind q (List.mem_cons_of_mem _ hq) hq2)
          (fun q hq hq2 => hNew q (List.mem_cons_of_mem _ hq) hq2)
      refine ⟨mkSong env p :: u2, mkSong env p :: n2, w2, ?_, ?_, fun _ => hw rfl⟩
      · rw [processPaths, hstep, ok_bind, hrun, List.append_assoc, List.append_assoc]
        rfl
      · intro s hs
        rcases List.mem_cons.mp hs with rfl | hs2
        · rw [get_hash_of_ne _ (mkSong_hash_ne env p)]
          exact ⟨hnsH, mkSong_path env p ▸ hML p (List.mem_cons_self _ _)⟩
        · exact hprops s hs2

theorem processPaths_append (env : ScanEnv) (ep : List String) :
    ∀ (l1 l2 : List String) (st : DiffState),
      processPaths env ep (l1 ++ l2) st
        = (processPaths env ep l1 st) >>= processPaths env ep l2 := by
  intro l1
  induction l1 with
  | nil => intro l2 st; rfl
  | cons p l1 ih =>
    intro l2 st
    rw [List.cons_append, processPaths, processPaths]
    cases hstep : diffStep env ep st p with
    | error e => rfl
    | ok st2 => rw [ok_bind, ok_bind, ih]

/-- C1: with a persisted catalog holding exactly one song `A` with identity
hash `H` at path `P`, a disk scan that no longer contains `P` but contains a
single new path `Q` whose tag-derived hash is `H` (and no other new file
colliding with any catalog hash), and no other file deleted, the diff phase
succeeds; the reconciled collection contains exactly one song with hash `H`,
namely `A` repathed to `Q`; no song carries the stale path `P`; the repathed
song is not in the loudness-analysis work list (its persisted loudness is
kept); and the dirty flag forcing the persist is set. -/
theorem C1_move_detection
    (env : ScanEnv) (E : List Song) (L : List String) (A : Song) (P Q H : String)
    (hAmem : A ∈ E) (hAcount : E.count A = 1)
    (hApath : A.file_path = P) (hAhash : A.hash = H) (hHne : H ≠ "")
    (hEhash : ∀ s ∈ E, s.hash ≠ "")
    (hUnique : ∀ s ∈ E, s ≠ A → s.hash ≠ H)
    (hPnot : P ∉ L) (hQin : Q ∈ L) (hLnd : L.Nodup)
    (hQnew : ∀ s ∈ E, s.file_path ≠ Q)
    (hQhash : (mkSong env Q).hash = H)
    (hNoOther : ∀ p ∈ L, p ∉ E.map Song.file_path → p ≠ Q →
        (mkSong env p).hash ≠ H ∧ ∀ s ∈ E, (mkSong env p).hash ≠ s.hash)
    (hNoDelete : ∀ s ∈ E, s ≠ A → s.file_path ∈ L)
    (hLoud : A.loudness ≠ 0) :
    ∃ r : DiffResult, scan_diff env E L = .ok r
      ∧ r.updated.filter (fun s => (Song.get_hash s).1 == H) = [{ A with file_path := Q }]
      ∧ ({ A with file_path := Q } : Song).file_path = Q
      ∧ (∀ s ∈ r.updated, s.file_path ≠ P)
      ∧ { A with file_path := Q } ∉ r.toAnalyze
      ∧ r.wasUpdated = true := by
  have hQP : Q ≠ P := fun h => hPnot (h ▸ hQin)
  -- split the scanned paths around the single occurrence of Q
  obtain ⟨L1, L2, hLsplit⟩ := List.append_of_mem hQin
  have hnd : (L1 ++ Q :: L2).Nodup := hLsplit ▸ hLnd
  obtain ⟨hndL1, hndQL2, hdisj⟩ := List.nodup_append.mp hnd
  have hQL1 : Q ∉ L1 := fun h => hdisj h (List.mem_cons_self _ _)
  have hQL2 : Q ∉ L2 := (List.nodup_cons.mp hndQL2).1
  -- split the catalog around the single occurrence of A
  obtain ⟨F1, F2, hEsplit⟩ := List.append_of_mem hAmem
  have hAnot : A ∉ F1 ∧ A ∉ F2 := by
    rw [hEsplit] at hAcount
    simp only [List.count_append, List.count_cons_self] at hAcount
    constructor
    · exact List.count_eq_zero.mp (by omega)
    · exact List.count_eq_zero.mp (by omega)
  have hsubE : ∀ s ∈ F1 ++ F2, s ∈ E := by
    intro s hs
    rw [hEsplit]
    rcases List.mem_append.mp hs with h | h
    · exact List.mem_append_left _ h
    · exact List.mem_append_right _ (List.mem_cons_of_mem _ h)
  have hsubne : ∀ s ∈ F1 ++ F2, s ≠ A := by
    intro s hs heq
    rcases List.mem_append.mp hs with h | h
    · exact hAnot.1 (heq ▸ h)
    · exact hAnot.2 (heq ▸ h)
  have hNoH : ∀ s ∈ E, s.file_path ∈ L → s.hash ≠ H := by
    intro s hs hp
    have hsA : s ≠ A := fun h => hPnot (by rw [h, hApath] at hp; exact hp)
    exact hUnique s hs hsA
  have hQnotin : Q ∉ E.map Song.file_path := by
    intro h
    obtain ⟨s, hs, heq⟩ := List.mem_map.mp h
    exact hQnew s hs heq
  have hAne : A.hash ≠ "" := hEhash A hAmem
  -- segment before the move
  obtain ⟨u1, n1, w1, hrun1, hprops1, _⟩ :=
    processPaths_segment env E L H L1 E [] [] false hEhash
      (fun s hs hp => hNoH s hs hp)
      (fun p hp => hLsplit ▸ List.mem_append_left _ hp)
      (fun p hp hmap => by
        obtain ⟨s, hs, heq⟩ := List.mem_map.mp hmap
        exact ⟨s, hs, heq⟩)
      (fun p hp hmap =>
        hNoOther p (hLsplit ▸ List.mem_append_left _ hp) hmap (fun h => hQL1 (h ▸ hp)))
  rw [List.nil_append, List.nil_append] at hrun1
  -- the move step at Q
  have hfst : (Song.get_hash (mkSong env Q)).1 = H := by
    rw [get_hash_of_ne _ (mkSong_hash_ne env Q)]
    exact hQhash
  have hF1cond : ∀ s ∈ F1, s.hash ≠ "" ∧ s.hash ≠ H := by
    intro s hs
    have hsE : s ∈ E := hsubE s (List.mem_append_left _ hs)
    exact ⟨hEhash s hsE, hUnique s hsE (fun h => hAnot.1 (h ▸ hs))⟩
  have hstepQ : diffStep env (E.map Song.file_path) ⟨E, u1, n1, w1⟩ Q
      = .ok ⟨F1 ++ F2, u1 ++ [{ A with file_path := Q }], n1, true⟩ := by
    simp only [diffStep]
    rw [if_neg hQnotin, hfst, hEsplit, findByHash_found H A hAhash hAne F1 F2 hF1cond]
    rfl
  -- segment after the move
  obtain ⟨u2, n2, w2, hrun2, hprops2, hw2⟩ :=
    processPaths_segment env E L H L2 (F1 ++ F2) (u1 ++ [{ A with file_path := Q }]) n1 true
      (fun s hs => hEhash s (hsubE s hs))
      (fun s hs hp => hNoH s (hsubE s hs) hp)
      (fun p hp => hLsplit ▸ List.mem_append_right _ (List.mem_cons_of_mem _ hp))
      (fun p hp hmap => by
        obtain ⟨s, hs, heq⟩ := List.mem_map.mp hmap
        have hsA : s ≠ A := fun h => by
          rw [h, hApath] at heq
          exact hPnot (heq ▸ hLsplit ▸ List.mem_append_right _ (List.mem_cons_of_mem _ hp))
        refine ⟨s, ?_, heq⟩
        rw [hEsplit] at hs
        rcases List.mem_append.mp hs with h | h
        · exact List.mem_append_left _ h
        · rcases List.mem_cons.mp h with h2 | h2
          · exact absurd h2 hsA
          · exact List.mem_append_right _ h2)
      (fun p hp hmap => by
        have hpQ : p ≠ Q := fun h => hQL2 (h ▸ hp)
        obtain ⟨h1, h2⟩ := hNoOther p
          (hLsplit ▸ List.mem_append_right _ (List.mem_cons_of_mem _ hp)) hmap hpQ
        exact ⟨h1, fun s hs => h2 s (hsubE s hs)⟩)
  have hw2t : w2 = true := hw2 rfl
  -- assemble the full run
  have hrun : runDiff env E L
      = .ok ⟨F1 ++ F2, (u1 ++ [{ A with file_path := Q }]) ++ u2, n1 ++ n2, w2⟩ := by
    rw [runDiff, hLsplit, processPaths_append, hrun1, ok_bind, processPaths, hstepQ, ok_bind,
      hrun2]
  have hdel : deleteLoop L (F1 ++ F2)
      ((u1 ++ [{ A with file_path := Q }]) ++ u2) w2
      = .ok ((u1 ++ [{ A with file_path := Q }]) ++ u2, w2) :=
    deleteLoop_no_deletions L (F1 ++ F2) _ w2
      (fun s hs => hNoDelete s (hsubE s hs) (hsubne s hs))
  have hAprime : (Song.get_hash { A with file_path := Q }).1 = H := by
    have : ({ A with file_path := Q } : Song).hash = A.hash := rfl
    rw [get_hash_of_ne _ (by rw [this]; exact hAne), this]
    exact hAhash
  refine ⟨(⟨(u1 ++ [{ A with file_path := Q }]) ++ u2, w2,
           ((u1 ++ [{ A with file_path := Q }]) ++ u2).filter (fun s => s.loudness == 0)⟩ :
             DiffResult),
         ?_, ?_, rfl, ?_, ?_, hw2t⟩
  · show (do
      let st ← runDiff env E L
      let res ← deleteLoop L st.existing st.updated st.wasUpdated
      Except.ok (⟨res.1, res.2, res.1.filter (fun s => s.loudness == 0)⟩ : DiffResult)) = _
    rw [hrun, ok_bind]
    show (do
      let res ← deleteLoop L (F1 ++ F2) ((u1 ++ [{ A with file_path := Q }]) ++ u2) w2
      Except.ok (⟨res.1, res.2, res.1.filter (fun s => s.loudness == 0)⟩ : DiffResult)) = _
    rw [hdel, ok_bind]
  · rw [List.filter_append, List.filter_append]
    have hnil1 : u1.filter (fun s => (Song.get_hash s).1 == H) = [] := by
      rw [List.filter_eq_nil_iff]
      intro s hs
      simp only [beq_iff_eq]
      exact (hprops1 s hs).1
    have hnil2 : u2.filter (fun s => (Song.get_hash s).1 == H) = [] := by
      rw [List.filter_eq_nil_iff]
      intro s hs
      simp only [beq_iff_eq]
      exact (hprops2 s hs).1
    rw [hnil1, hnil2]
    simp [hAprime]
  · intro s hs
    rcases List.mem_append.mp hs with hs1 | hs2
    · rcases List.mem_append.mp hs1 with h | h
      · intro hp
        exact hPnot (hp ▸ (hprops1 s h).2)
      · have : s = { A with file_path := Q } := List.mem_singleton.mp h
        rw [this]
        exact hQP
    · intro hp
      exact hPnot (hp ▸ (hprops2 s hs2).2)
  · intro hmem
    have := (List.mem_filter.mp hmem).2
    simp only [beq_iff_eq] at this
    have hl : ({ A with file_path := Q } : Song).loudness = A.loudness := rfl
    rw [hl] at this
    exact hLoud this

/-- Tags the scan reads at the new location of the moved file. -/
def tagsMove : SongTags :=
  ⟨"T", "Al", "Art", [], [], 2, 1, 300, 2020, "", false, 320, "mp3", 1000⟩

/-- Scan environment for the concrete move scenario. -/
def envMove : ScanEnv := ⟨fun _ => tagsMove, "2024-01-01T00:00:00", fun _ => ""⟩

/-- The persisted song whose file is moved on disk. -/
def songMoved : Song :=
  { song0 with file_path := "/music/X/a.mp3", title := "T", album := "Al",
               album_artist := "Art", track_number := 2, disc_number := 1,
               hash := "Art|Al|1.2|T", loudness := -9, lastfm_playcount := 4,
               duration := 300 }

/-- Closed instance of `C1_move_detection`: one catalog song at
`/music/X/a.mp3`, the same tags found at `/music/Y/a.mp3`. -/
theorem C1_move_detection_witness :
    ∃ r : DiffResult, scan_diff envMove [songMoved] ["/music/Y/a.mp3"] = .ok r
      ∧ r.updated.filter (fun s => (Song.get_hash s).1 == "Art|Al|1.2|T")
          = [{ songMoved with file_path := "/music/Y/a.mp3" }]
      ∧ ({ songMoved with file_path := "/music/Y/a.mp3" } : Song).file_path = "/music/Y/a.mp3"
      ∧ (∀ s ∈ r.updated, s.file_path ≠ "/music/X/a.mp3")
      ∧ { songMoved with file_path := "/music/Y/a.mp3" } ∉ r.toAnalyze
      ∧ r.wasUpdated = true :=
  C1_move_detection envMove [songMoved] ["/music/Y/a.mp3"] songMoved
    "/music/X/a.mp3" "/music/Y/a.mp3" "Art|Al|1.2|T"
    (by decide) (by decide) rfl rfl (by decide) (by decide) (by decide) (by decide) (by decide)
    (by decide) (by decide) (by decide) (by decide) (by decide) (by decide)

/-! ### The query and scoring layer (`calc_song_similarity`,
`song_recommendations` of `modules/library_utils.py`) -/

/-- `calc_song_similarity`: 1 for same file or same (album, album-artist);
else the best of genre/tag/artist Jaccard scaled by the release-year recency
factor, capped at 1.  The float literal 0.2 is the exact rational 1/5. -/
def calc_song_similarity (song1 song2 : Song) : ℚ :=
  if song1.file_path = song2.file_path ∨
      (song1.album = song2.album ∧ song1.album_artist = song2.album_artist) then 1
  else
    min 1 (max (max (_jaccard_index song1.genres song2.genres)
                    (_jaccard_index song1.lastfm_tags song2.lastfm_tags))
               (_jaccard_index (song1.other_artists ++ [song1.album_artist])
                               (song2.other_artists ++ [song2.album_artist]))
          * (1 / max (max (((song1.release_year : ℚ) - song2.release_year) * (1 / 5))
                          (((song2.release_year : ℚ) - song1.release_year) * (1 / 5))) 1))

/-- The sources of randomness used by `song_recommendations`:
`random.shuffle`, `random.choices(weights=..., k=...)`, `random.choice`
(`none` models the `IndexError` on an empty sequence). -/
structure Rng where
  shuffle : List Song → List Song
  choicesPick : List Song → List ℚ → Nat → List Song
  choice : List Song → Option Song

/-- The candidate filter of `song_recommendations`:
`s != song and s.duration >= 120` and the optional scene restriction
(`not scene or scene == map_genre(s.genres)`; an empty scene string is falsy).
The genre-to-scene classifier is the external collaborator `mapGenre`. -/
def recFilter (mapGenre : List String → String) (song : Song) (scene : Option String)
    (s : Song) : Bool :=
  decide (s ≠ song) && decide (120 ≤ s.duration) &&
    (match scene with
     | none => true
     | some sc => sc == "" || sc == mapGenre s.genres)

/-- The eligible candidates, in pool order. -/
def eligibleOf (mapGenre : List String → String) (song : Song) (all_songs : List Song)
    (scene : Option String) : List Song :=
  all_songs.filter (recFilter mapGenre song scene)

/-- The weight attached to one candidate whose `popularity` attribute holds
`p`: `calc_song_similarity(song, s) * min(1, s.popularity) *
(calc_song_similarity(seed, s) if seed else 1)`. -/
def candWeight (song : Song) (seed : Option Song) (s : Song) (p : ℚ) : ℚ :=
  calc_song_similarity song s * min 1 p *
    (match seed with
     | some sd => calc_song_similarity sd s
     | none => 1)

/-- The comprehension bodies evaluated left to right: `min(1, s.popularity)`
raises `AttributeError` for a candidate never assigned the attribute. -/
def candidatesOfAux (song : Song) (seed : Option Song) :
    List Song → Except PyErr (List (Song × ℚ))
  | [] => .ok []
  | s :: rest =>
    match s.popularity with
    | none => .error .attributeError
    | some p =>
      match candidatesOfAux song seed rest with
      | .error e => .error e
      | .ok cs => .ok ((s, candWeight song seed s p) :: cs)

/-- The weighted candidate list built by the comprehension at lines 352-355
(`AttributeError` as soon as an eligible candidate lacks `popularity`). -/
def candidatesOf (mapGenre : List String → String) (song : Song) (all_songs : List Song)
    (seed : Option Song) (scene : Option String) : Except PyErr (List (Song × ℚ)) :=
  candidatesOfAux song seed (eligibleOf mapGenre song all_songs scene)

/-- The candidate list in the all-attributes-present case. -/
def candListOf (mapGenre : List String → String) (song : Song) (all_songs : List Song)
    (seed : Option Song) (scene : Option String) : List (Song × ℚ) :=
  (eligibleOf mapGenre song all_songs scene).map
    (fun s => (s, candWeight song seed s (s.popularity.getD 0)))

/-- The top-up `while` loop (lines 381-383): pick uniformly from the songs
not yet recommended until `number` songs or the pool is exhausted; the loop
adds one song per iteration, so `number` steps of fuel make the model exact. -/
def topUp (choice : List Song → Option Song) (songs : List Song) (number : Nat) :
    Nat → List Song → Except PyErr (List Song)
  | 0, recs => .ok recs
  | fuel + 1, recs =>
    if recs.length < number ∧ recs.length < songs.length then
      match choice (songs.filter (fun s => decide (s ∉ recs))) with
      | none => .error .indexError
      | some x => topUp choice songs number fuel (recs ++ [x])
    else .ok recs

/-- Lines 363-385 of `song_recommendations`, after the normalization: the
guard returning `[]`, the return-all-shuffled branch, and the weighted
sampling (`random.choices` with the computed probabilities, dedup via
`dict.fromkeys`, then the top-up loop). -/
def recommendStage2 (rng : Rng) (number : Nat) (candidates2 : List (Song × ℚ)) :
    Except PyErr (List Song) :=
  if candidates2 = [] then .ok []
  else if candidates2.length ≤ number then .ok (rng.shuffle (candidates2.map Prod.fst))
  else
    topUp rng.choice (candidates2.map Prod.fst) number number
      (dedupF (rng.choicesPick (candidates2.map Prod.fst)
        (if (candidates2.map Prod.snd).sum = 0 then
           List.replicate candidates2.length ((1 : ℚ) / (candidates2.length : ℚ))
         else (candidates2.map Prod.snd).map (fun x => x / (candidates2.map Prod.snd).sum))
        number))

/-- `song_recommendations` from `modules/library_utils.py` (lines 341-385).
The unconditional `max` over the similarities of candidates from a different
album artist raises `ValueError` on an empty sequence; when it is nonzero the
weights are normalized by it. -/
def song_recommendations (rng : Rng) (mapGenre : List String → String) (song : Song)
    (all_songs : List Song) (seed : Option Song) (_threshold : ℚ) (number : Nat)
    (scene : Option String) : Except PyErr (List Song) :=
  match candidatesOf mapGenre song all_songs seed scene with
  | .error e => .error e
  | .ok candidates =>
    match ((candidates.filter
        (fun c => !(c.1.album_artist == song.album_artist))).map Prod.snd).max? with
    | none => .error .valueError
    | some m =>
      recommendStage2 rng number
        (if m ≠ 0 then candidates.map (fun c => (c.1, min 1 (c.2 / m))) else candidates)

theorem topUp_no_valueError (choice : List Song → Option Song) (songs : List Song)
    (number : Nat) :
    ∀ (fuel : Nat) (recs : List Song),
      topUp choice songs number fuel recs ≠ .error .valueError := by
  intro fuel
  induction fuel with
  | zero => intro recs h; exact Except.noConfusion h
  | succ f ih =>
    intro recs
    rw [topUp]
    by_cases hc : recs.length < number ∧ recs.length < songs.length
    · rw [if_pos hc]
      cases hch : choice (songs.filter (fun s => decide (s ∉ recs))) with
      | none => intro h; exact PyErr.noConfusion (Except.error.inj h)
      | some x => exact ih (recs ++ [x])
    · rw [if_neg hc]
      intro h
      exact Except.noConfusion h

theorem recommendStage2_no_valueError (rng : Rng) (number : Nat)
    (candidates2 : List (Song × ℚ)) :
    recommendStage2 rng number candidates2 ≠ .error .valueError := by
  rw [recommendStage2]
  by_cases h1 : candidates2 = []
  · rw [if_pos h1]
    intro h
    exact Except.noConfusion h
  · rw [if_neg h1]
    by_cases h2 : candidates2.length ≤ number
    · rw [if_pos h2]
      intro h
      exact Except.noConfusion h
    · rw [if_neg h2]
      exact topUp_no_valueError _ _ _ _ _

theorem candidatesOfAux_ne_valueError (song : Song) (seed : Option Song) :
    ∀ l : List Song, candidatesOfAux song seed l ≠ .error .valueError := by
  intro l
  induction l with
  | nil => intro h; exact Except.noConfusion h
  | cons s rest ih =>
    cases hp : s.popularity with
    | none =>
      rw [candidatesOfAux, hp]
      intro h
      exact PyErr.noConfusion (Except.error.inj h)
    | some p =>
      rw [candidatesOfAux, hp]
      cases hr : candidatesOfAux song seed rest with
      | error e =>
        intro h
        exact ih ((Except.error.inj h) ▸ hr)
      | ok cs =>
        intro h
        exact Except.noConfusion h

theorem candidatesOfAux_ok (song : Song) (seed : Option Song) :
    ∀ l : List Song, (∀ s ∈ l, s.popularity ≠ none) →
      candidatesOfAux song seed l
        = .ok (l.map (fun s => (s, candWeight song seed s (s.popularity.getD 0)))) := by
  intro l
  induction l with
  | nil => intro _; rfl
  | cons s rest ih =>
    intro h
    cases hp : s.popularity with
    | none => exact absurd hp (h s (List.mem_cons_self s rest))
    | some p =>
      rw [candidatesOfAux, hp, ih (fun x hx => h x (List.mem_cons_of_mem s hx)),
        List.map_cons]
      have hgd : (s.popularity.getD 0) = p := by rw [hp]; rfl
      rw [hgd]

theorem candidatesOf_ok (mapGenre : List String → String) (song : Song)
    (all_songs : List Song) (seed : Option Song) (scene : Option String)
    (h : ∀ s ∈ eligibleOf mapGenre song all_songs scene, s.popularity ≠ none) :
    candidatesOf mapGenre song all_songs seed scene
      = .ok (candListOf mapGenre song all_songs seed scene) :=
  candidatesOfAux_ok song seed _ h

/-- C10: `song_recommendations` raises the uncaught `ValueError` of
`max([])` exactly when the candidate comprehension completes and its result
is empty or every candidate shares the input song's album artist; in
particular the guard returning `[]` is unreachable for an empty candidate
list - and hence for an empty pool, where the comprehension trivially
completes empty - because the call errors first. -/
theorem C10_recommendations_crash (rng : Rng) (mapGenre : List String → String)
    (song : Song) (all_songs : List Song) (seed : Option Song) (threshold : ℚ)
    (number : Nat) (scene : Option String) :
    (song_recommendations rng mapGenre song all_songs seed threshold number scene
        = .error .valueError
      ↔ ∃ cs, candidatesOf mapGenre song all_songs seed scene = .ok cs
          ∧ (cs = [] ∨ ∀ c ∈ cs, c.1.album_artist = song.album_artist))
    ∧ (candidatesOf mapGenre song all_songs seed scene = .ok [] →
        song_recommendations rng mapGenre song all_songs seed threshold number scene
          = .error .valueError) := by
  have hiff : ∀ cs : List (Song × ℚ),
      cs.filter (fun c => !(c.1.album_artist == song.album_artist)) = []
      ↔ (cs = [] ∨ ∀ c ∈ cs, c.1.album_artist = song.album_artist) := by
    intro cs
    rw [List.filter_eq_nil_iff]
    constructor
    · intro h
      exact Or.inr (fun c hc => by simpa using h c hc)
    · rintro (h | h) c hc
      · rw [h] at hc
        exact absurd hc (List.not_mem_nil c)
      · simpa using h c hc
  constructor
  · cases hcand : candidatesOf mapGenre song all_songs seed scene with
    | error e =>
      constructor
      · intro h
        rw [song_recommendations, hcand] at h
        have he : e = PyErr.valueError := Except.error.inj h
        exact absurd (he ▸ hcand) (candidatesOfAux_ne_valueError song seed _)
      · rintro ⟨cs, hcs, -⟩
        exact Except.noConfusion hcs
    | ok cs =>
      have hred : song_recommendations rng mapGenre song all_songs seed threshold number
          scene
          = (match ((cs.filter (fun c => !(c.1.album_artist == song.album_artist))).map
              Prod.snd).max? with
             | none => Except.error PyErr.valueError
             | some m => recommendStage2 rng number
                 (if m ≠ 0 then cs.map (fun c => (c.1, min 1 (c.2 / m))) else cs)) := by
        rw [song_recommendations, hcand]
      cases hmax : ((cs.filter (fun c => !(c.1.album_artist == song.album_artist))).map
          Prod.snd).max? with
      | none =>
        rw [hmax] at hred
        have hred2 : song_recommendations rng mapGenre song all_songs seed threshold
            number scene = .error .valueError := hred
        have hnil : cs.filter (fun c => !(c.1.album_artist == song.album_artist)) = [] :=
          List.map_eq_nil_iff.mp (List.max?_eq_none_iff.mp hmax)
        constructor
        · intro _
          exact ⟨cs, rfl, (hiff cs).mp hnil⟩
        · intro _
          exact hred2
      | some m =>
        rw [hmax] at hred
        have hred2 : song_recommendations rng mapGenre song all_songs seed threshold
            number scene = recommendStage2 rng number
              (if m ≠ 0 then cs.map (fun c => (c.1, min 1 (c.2 / m))) else cs) := hred
        have hne : cs.filter (fun c => !(c.1.album_artist == song.album_artist)) ≠ [] := by
          intro h
          rw [h] at hmax
          exact Option.noConfusion hmax
        constructor
        · intro h
          rw [hred2] at h
          exact absurd h (recommendStage2_no_valueError rng number _)
        · rintro ⟨cs2, hcs2, hdisj⟩
          have hcc : cs2 = cs := (Except.ok.inj hcs2).symm
          rw [hcc] at hdisj
          exact absurd ((hiff cs).mpr hdisj) hne
  · intro hnil
    rw [song_recommendations, hnil]
    rfl

theorem dedupFAux_length_le {α : Type} [DecidableEq α] :
    ∀ (l seen : List α), (dedupFAux seen l).length ≤ l.length := by
  intro l
  induction l with
  | nil => intro seen; simp [dedupFAux]
  | cons x xs ih =>
    intro seen
    by_cases hx : x ∈ seen
    · rw [dedupFAux, if_pos hx]
      exact le_trans (ih seen) (Nat.le_succ _)
    · rw [dedupFAux, if_neg hx, List.length_cons]
      exact Nat.succ_le_succ (ih (x :: seen))

theorem dedupF_length_le {α : Type} [DecidableEq α] (l : List α) :
    (dedupF l).length ≤ l.length :=
  dedupFAux_length_le l []

theorem song_not_mem_eligible (mapGenre : List String → String) (song : Song)
    (all_songs : List Song) (scene : Option String) :
    song ∉ eligibleOf mapGenre song all_songs scene := by
  intro h
  have := (List.mem_filter.mp h).2
  simp [recFilter] at this

theorem topUp_spec (choice : List Song → Option Song) (songs : List Song) (number : Nat)
    (hnd : songs.Nodup)
    (hcm : ∀ (l : List Song) (x : Song), choice l = some x → x ∈ l)
    (hcs : ∀ l : List Song, l ≠ [] → choice l ≠ none) :
    ∀ (fuel : Nat) (recs : List Song), recs.Nodup → (∀ x ∈ recs, x ∈ songs) →
      recs.length ≤ number →
      ∃ res, topUp choice songs number fuel recs = .ok res ∧ res.Nodup ∧
        (∀ x ∈ res, x ∈ songs) ∧ res.length ≤ number := by
  intro fuel
  induction fuel with
  | zero => intro recs h1 h2 h3; exact ⟨recs, rfl, h1, h2, h3⟩
  | succ f ih =>
    intro recs h1 h2 h3
    rw [topUp]
    by_cases hc : recs.length < number ∧ recs.length < songs.length
    · rw [if_pos hc]
      have hrem : songs.filter (fun s => decide (s ∉ recs)) ≠ [] := by
        intro hnil
        have hsub : songs ⊆ recs := by
          intro x hx
          by_contra hxr
          have hmem : x ∈ songs.filter (fun s => decide (s ∉ recs)) :=
            List.mem_filter.mpr ⟨hx, by simpa using hxr⟩
          rw [hnil] at hmem
          exact absurd hmem (List.not_mem_nil x)
        have := (List.subperm_of_subset hnd hsub).length_le
        omega
      cases hch : choice (songs.filter (fun s => decide (s ∉ recs))) with
      | none => exact absurd hch (hcs _ hrem)
      | some x =>
        have hx := hcm _ x hch
        have hxs : x ∈ songs := (List.mem_filter.mp hx).1
        have hxr : x ∉ recs := by
          have := (List.mem_filter.mp hx).2
          simpa using this
        have hnd2 : (recs ++ [x]).Nodup := by
          rw [List.nodup_append]
          refine ⟨h1, List.nodup_singleton x, ?_⟩
          intro a ha hmem
          rw [List.mem_singleton] at hmem
          exact hxr (hmem ▸ ha)
        obtain ⟨res, hres, p1, p2, p3⟩ := ih (recs ++ [x]) hnd2
          (by
            intro y hy
            rcases List.mem_append.mp hy with h | h
            · exact h2 y h
            · rw [List.mem_singleton.mp h]
              exact hxs)
          (by
            rw [List.length_append, List.length_singleton]
            omega)
        exact ⟨res, hres, p1, p2, p3⟩
    · rw [if_neg hc]
      exact ⟨recs, rfl, h1, h2, h3⟩

/-- C6, amended: provided every eligible candidate carries the dynamically
assigned `popularity` attribute (otherwise reading it in the comprehension
raises `AttributeError`), at least one eligible candidate has a different
album artist than the input song (otherwise the `max([])` call raises
`ValueError`, see the C10 theorem), and the pool has no duplicate entries,
`song_recommendations` returns successfully for every behaviour of the
random sources: the result never contains the input song, has no duplicates,
has at most `number` entries, only contains eligible candidates, and when
the eligible candidates number at most `number` it is a permutation of
(exactly) them. -/
theorem C6_recommend_output (rng : Rng) (mapGenre : List String → String) (song : Song)
    (all_songs : List Song) (seed : Option Song) (threshold : ℚ) (number : Nat)
    (scene : Option String)
    (hnodup : all_songs.Nodup)
    (hShuffle : ∀ l, (rng.shuffle l).Perm l)
    (hChoices : ∀ (l : List Song) (w : List ℚ) (k : Nat), l ≠ [] →
      (rng.choicesPick l w k).length = k ∧ ∀ x ∈ rng.choicesPick l w k, x ∈ l)
    (hChoiceMem : ∀ (l : List Song) (x : Song), rng.choice l = some x → x ∈ l)
    (hChoiceSome : ∀ l : List Song, l ≠ [] → rng.choice l ≠ none)
    (hpop : ∀ s ∈ eligibleOf mapGenre song all_songs scene, s.popularity ≠ none)
    (hdiff : ∃ c ∈ candListOf mapGenre song all_songs seed scene,
        c.1.album_artist ≠ song.album_artist) :
    ∃ res, song_recommendations rng mapGenre song all_songs seed threshold number scene
        = .ok res
      ∧ song ∉ res
      ∧ res.Nodup
      ∧ res.length ≤ number
      ∧ (∀ s ∈ res, s ∈ eligibleOf mapGenre song all_songs scene)
      ∧ ((eligibleOf mapGenre song all_songs scene).length ≤ number →
          res.Perm (eligibleOf mapGenre song all_songs scene)) := by
  have hEnodup : (eligibleOf mapGenre song all_songs scene).Nodup := hnodup.filter _
  have hsongE : song ∉ eligibleOf mapGenre song all_songs scene :=
    song_not_mem_eligible mapGenre song all_songs scene
  obtain ⟨c, hc, hca⟩ := hdiff
  have hfmem : c ∈ (candListOf mapGenre song all_songs seed scene).filter
      (fun c => !(c.1.album_artist == song.album_artist)) :=
    List.mem_filter.mpr ⟨hc, by simpa using hca⟩
  have hfne : ((candListOf mapGenre song all_songs seed scene).filter
      (fun c => !(c.1.album_artist == song.album_artist))).map Prod.snd ≠ [] := by
    intro h
    rw [List.map_eq_nil_iff] at h
    rw [h] at hfmem
    exact absurd hfmem (List.not_mem_nil c)
  cases hmax : (((candListOf mapGenre song all_songs seed scene).filter
      (fun c => !(c.1.album_artist == song.album_artist))).map Prod.snd).max? with
  | none => exact absurd (List.max?_eq_none_iff.mp hmax) hfne
  | some m =>
    have hred : song_recommendations rng mapGenre song all_songs seed threshold number
        scene
        = (match (((candListOf mapGenre song all_songs seed scene).filter
            (fun c => !(c.1.album_artist == song.album_artist))).map Prod.snd).max? with
           | none => Except.error PyErr.valueError
           | some m => recommendStage2 rng number (if m ≠ 0 then
               (candListOf mapGenre song all_songs seed scene).map
                 (fun c => (c.1, min 1 (c.2 / m)))
             else candListOf mapGenre song all_songs seed scene)) := by
      rw [song_recommendations, candidatesOf_ok mapGenre song all_songs seed scene hpop]
    rw [hmax] at hred
    have hred2 : song_recommendations rng mapGenre song all_songs seed threshold number
        scene = recommendStage2 rng number (if m ≠ 0 then
          (candListOf mapGenre song all_songs seed scene).map
            (fun c => (c.1, min 1 (c.2 / m)))
        else candListOf mapGenre song all_songs seed scene) := hred
    rw [hred2]
    have hcsfst : (candListOf mapGenre song all_songs seed scene).map Prod.fst
        = eligibleOf mapGenre song all_songs scene := by
      rw [candListOf, List.map_map]
      simp [Function.comp_def]
    have h2fst : ((if m ≠ 0 then
          (candListOf mapGenre song all_songs seed scene).map
            (fun c => (c.1, min 1 (c.2 / m)))
        else candListOf mapGenre song all_songs seed scene)).map Prod.fst
        = eligibleOf mapGenre song all_songs scene := by
      by_cases hm : m ≠ 0
      · rw [if_pos hm, List.map_map]
        rw [show (Prod.fst ∘ fun c : Song × ℚ => (c.1, min 1 (c.2 / m))) = Prod.fst from rfl]
        exact hcsfst
      · rw [if_neg hm]
        exact hcsfst
    have h2len : ((if m ≠ 0 then
          (candListOf mapGenre song all_songs seed scene).map
            (fun c => (c.1, min 1 (c.2 / m)))
        else candListOf mapGenre song all_songs seed scene)).length
        = (eligibleOf mapGenre song all_songs scene).length := by
      rw [← h2fst, List.length_map]
    have h2ne : (if m ≠ 0 then
          (candListOf mapGenre song all_songs seed scene).map
            (fun c => (c.1, min 1 (c.2 / m)))
        else candListOf mapGenre song all_songs seed scene) ≠ [] := by
      intro h
      have := congrArg (List.map Prod.fst) h
      rw [h2fst] at this
      have hcE : c.1 ∈ eligibleOf mapGenre song all_songs scene := by
        rw [← hcsfst]
        exact List.mem_map_of_mem Prod.fst hc
      rw [this] at hcE
      exact absurd hcE (List.not_mem_nil _)
    rw [recommendStage2, if_neg h2ne]
    by_cases hlen : (if m ≠ 0 then
          (candListOf mapGenre song all_songs seed scene).map
            (fun c => (c.1, min 1 (c.2 / m)))
        else candListOf mapGenre song all_songs seed scene).length ≤ number
    · rw [if_pos hlen]
      have hperm : (rng.shuffle ((if m ≠ 0 then
            (candListOf mapGenre song all_songs seed scene).map
              (fun c => (c.1, min 1 (c.2 / m)))
          else candListOf mapGenre song all_songs seed scene).map Prod.fst)).Perm
          (eligibleOf mapGenre song all_songs scene) := by
        rw [h2fst]
        exact hShuffle _
      refine ⟨_, rfl, ?_, ?_, ?_, ?_, fun _ => hperm⟩
      · intro h
        exact hsongE (hperm.mem_iff.mp h)
      · exact hperm.nodup_iff.mpr hEnodup
      · rw [hperm.length_eq]
        rw [h2len] at hlen
        exact hlen
      · intro s hs
        exact hperm.mem_iff.mp hs
    · rw [if_neg hlen]
      rw [h2len] at hlen
      have hEne : eligibleOf mapGenre song all_songs scene ≠ [] := by
        intro h
        rw [h] at hlen
        simp at hlen
      rw [h2fst]
      have key : ∀ wts : List ℚ,
          ∃ res, topUp rng.choice (eligibleOf mapGenre song all_songs scene) number number
              (dedupF (rng.choicesPick (eligibleOf mapGenre song all_songs scene) wts number))
            = .ok res
          ∧ song ∉ res ∧ res.Nodup ∧ res.length ≤ number
          ∧ (∀ s ∈ res, s ∈ eligibleOf mapGenre song all_songs scene)
          ∧ ((eligibleOf mapGenre song all_songs scene).length ≤ number →
              res.Perm (eligibleOf mapGenre song all_songs scene)) := by
        intro wts
        obtain ⟨hplen, hpmem⟩ := hChoices (eligibleOf mapGenre song all_songs scene) wts
          number hEne
        have hrnodup : (dedupF (rng.choicesPick (eligibleOf mapGenre song all_songs scene) wts
            number)).Nodup := nodup_dedupF _
        have hrsub : ∀ x ∈ dedupF (rng.choicesPick (eligibleOf mapGenre song all_songs scene)
            wts number), x ∈ eligibleOf mapGenre song all_songs scene := by
          intro x hx
          exact hpmem x ((mem_dedupF x _).mp hx)
        have hrlen : (dedupF (rng.choicesPick (eligibleOf mapGenre song all_songs scene) wts
            number)).length ≤ number := by
          calc (dedupF (rng.choicesPick (eligibleOf mapGenre song all_songs scene) wts
              number)).length
              ≤ (rng.choicesPick (eligibleOf mapGenre song all_songs scene) wts
                  number).length := dedupF_length_le _
            _ = number := hplen
        obtain ⟨res, hres, p1, p2, p3⟩ :=
          topUp_spec rng.choice (eligibleOf mapGenre song all_songs scene) number hEnodup
            hChoiceMem hChoiceSome number _ hrnodup hrsub hrlen
        refine ⟨res, hres, ?_, p1, p3, p2, ?_⟩
        · intro h
          exact hsongE (p2 song h)
        · intro hcon
          omega
      exact key _

/-- A concrete deterministic instantiation of the random sources: identity
shuffle, `choices` repeating the first element, `choice` taking the head. -/
def rngId : Rng where
  shuffle := fun l => l
  choicesPick := fun l _ k => match l with
    | [] => []
    | x :: _ => List.replicate k x
  choice := fun l => l.head?

/-- The input song of the C6 counterexample (album artist A). -/
def songMain : Song := { song0 with title := "main", album_artist := "A",
                                    file_path := "/m/1.mp3", duration := 200 }

/-- An eligible candidate sharing the input song's album artist (played, so
its `popularity` attribute was assigned by the scan). -/
def songSame : Song := { song0 with title := "other", album_artist := "A",
                                    file_path := "/m/2.mp3", duration := 200,
                                    play_count := 1, popularity := some 1 }
/-- An eligible never-played candidate with a different album artist: its
`popularity` attribute was never assigned. -/
def songNoPop : Song := { song0 with title := "fresh", album_artist := "B",
                                     file_path := "/m/4.mp3", duration := 200 }

/-- C6, counterexample to the claim as stated, in both failure modes: a pool
with one eligible candidate (at most N) should be returned in full, but (a)
when the candidate shares the input song's album artist the normalization
maximum is taken over an empty sequence and the call raises `ValueError`, and
(b) when the candidate was never played its `popularity` attribute was never
assigned and the comprehension raises `AttributeError`, even though the
candidate's album artist differs. -/
theorem C6_counterexample :
    songSame ≠ songMain ∧ 120 ≤ songSame.duration
    ∧ eligibleOf (fun _ => "other") songMain [songSame] none = [songSame]
    ∧ (eligibleOf (fun _ => "other") songMain [songSame] none).length ≤ 10
    ∧ song_recommendations rngId (fun _ => "other") songMain [songSame] none (1 / 10) 10 none
        = .error .valueError
    ∧ songNoPop.album_artist ≠ songMain.album_artist
    ∧ songNoPop.popularity = none
    ∧ eligibleOf (fun _ => "other") songMain [songNoPop] none = [songNoPop]
    ∧ (eligibleOf (fun _ => "other") songMain [songNoPop] none).length ≤ 10
    ∧ song_recommendations rngId (fun _ => "other") songMain [songNoPop] none (1 / 10) 10
        none = .error .attributeError := by
  refine ⟨by decide, by decide, by decide, by decide, rfl,
    by decide, by decide, by decide, by decide, rfl⟩

/-- An eligible candidate with a different album artist (played, so its
`popularity` attribute was assigned by the scan). -/
def songDiff : Song := { song0 with title := "third", album_artist := "B",
                                    file_path := "/m/3.mp3", duration := 200,
                                    play_count := 1, popularity := some 1 }

/-- Closed instance of `C6_recommend_output` at a concrete pool and the
deterministic random sources. -/
theorem C6_recommend_output_witness :
    ∃ res, song_recommendations rngId (fun _ => "other") songMain [songDiff] none (1 / 10) 10
        none = .ok res
      ∧ songMain ∉ res
      ∧ res.Nodup
      ∧ res.length ≤ 10
      ∧ (∀ s ∈ res, s ∈ eligibleOf (fun _ => "other") songMain [songDiff] none)
      ∧ ((eligibleOf (fun _ => "other") songMain [songDiff] none).length ≤ 10 →
          res.Perm (eligibleOf (fun _ => "other") songMain [songDiff] none)) :=
  C6_recommend_output rngId (fun _ => "other") songMain [songDiff] none (1 / 10) 10 none
    (by decide)
    (fun l => List.Perm.refl l)
    (by
      intro l w k hl
      cases l with
      | nil => exact absurd rfl hl
      | cons x xs =>
        refine ⟨List.length_replicate k x, ?_⟩
        intro y hy
        rw [List.eq_of_mem_replicate hy]
        exact List.mem_cons_self x xs)
    (by
      intro l x h
      cases l with
      | nil => exact Option.noConfusion h
      | cons a as =>
        have h2 : (a :: as).head? = some x := h
        rw [List.head?_cons] at h2
        rw [← Option.some.inj h2]
        exact List.mem_cons_self a as)
    (by
      intro l hl
      cases l with
      | nil => exact absurd rfl hl
      | cons a as =>
        show (a :: as).head? ≠ none
        rw [List.head?_cons]
        exact Option.noConfusion)
    (by decide)
    (by
      refine ⟨(songDiff, candWeight songMain none songDiff (songDiff.popularity.getD 0)),
        ?_, by decide⟩
      show _ ∈ (eligibleOf (fun _ => "other") songMain [songDiff] none).map
        (fun s => (s, candWeight songMain none s (s.popularity.getD 0)))
      have he : eligibleOf (fun _ => "other") songMain [songDiff] none = [songDiff] := by decide
      rw [he]
      exact List.mem_singleton.mpr rfl)

/-! ### The snapshot-cache search (`LibraryService.search_song`,
`modules/library_service.py` lines 99-107) -/

/-- Whitespace splitting of a character list, dropping empty pieces (Python
`str.split()` with no argument); `acc` holds the current word reversed. -/
def splitWsAux : List Char → List Char → List String
  | [], acc => if acc = [] then [] else [String.mk acc.reverse]
  | c :: cs, acc =>
    if c.isWhitespace then
      if acc = [] then splitWsAux cs [] else String.mk acc.reverse :: splitWsAux cs []
    else splitWsAux cs (c :: acc)

/-- Python `s.lower().split()`. -/
def pyTokens (s : String) : List String := splitWsAux (pyLower s).data []

/-- The descriptor string
`f"{song.get_artists} - {song.title} ({song.track_number} on {song.album})"`.
The first interpolation formats the *bound method* `song.get_artists` (it is
not called), producing Python's runtime repr of the method; that repr is the
external parameter `artistsRepr`. -/
def song_string (artistsRepr : Song → String) (s : Song) : String :=
  artistsRepr s ++ " - " ++ s.title ++ " (" ++ natStr s.track_number ++ " on " ++ s.album ++ ")"

/-- The score computed at line 104:
`len(set(desc) & set(term)) / min(1, len(set(desc) | set(term)))` — note the
`min` where the Jaccard index would need `max`. -/
def searchScore (artistsRepr : Song → String) (term : String) (s : Song) : ℚ :=
  (interCard (pyTokens (song_string artistsRepr s)) (pyTokens term) : ℚ)
    / ((min 1 (unionCard (pyTokens (song_string artistsRepr s)) (pyTokens term)) : Nat) : ℚ)

/-- Stable descending insertion by score: a new element goes after every
element with a score greater than or equal to its own, which is exactly the
order of Python `sorted(..., key=lambda x: x[0], reverse=True)`. -/
def insertDesc (x : ℚ × Song) : List (ℚ × Song) → List (ℚ × Song)
  | [] => [x]
  | y :: ys => if x.1 ≤ y.1 then y :: insertDesc x ys else x :: y :: ys

/-- Stable sort by descending score. -/
def sortDesc (l : List (ℚ × Song)) : List (ℚ × Song) :=
  l.foldl (fun acc x => insertDesc x acc) []

/-- `LibraryService.search_song`: score every snapshot song, keep positive
scores, return the songs sorted by descending score. -/
def search_song (artistsRepr : Song → String) (snapshot : List Song) (term : String) :
    List Song :=
  (sortDesc (snapshot.filterMap (fun s =>
    if 0 < searchScore artistsRepr term s then some (searchScore artistsRepr term s, s)
    else none))).map Prod.snd

/-- Modelled from the claim's words: the descriptor with the artists rendered
by a called `get_artists()`. -/
def descSpec (s : Song) : String :=
  s.get_artists ++ " - " ++ s.title ++ " (" ++ natStr s.track_number ++ " on " ++ s.album ++ ")"

/-- Modelled from the claim's words: the token-Jaccard score (via
`_jaccard_index`) between the search term's tokens and the descriptor
tokens. -/
def specSearchScore (term : String) (s : Song) : ℚ :=
  _jaccard_index (pyTokens (descSpec s)) (pyTokens term)

theorem insertDesc_perm (x : ℚ × Song) :
    ∀ l : List (ℚ × Song), (insertDesc x l).Perm (x :: l) := by
  intro l
  induction l with
  | nil => exact List.Perm.refl _
  | cons y ys ih =>
    rw [insertDesc]
    by_cases h : x.1 ≤ y.1
    · rw [if_pos h]
      exact (ih.cons y).trans (List.Perm.swap x y ys)
    · rw [if_neg h]

theorem sortDesc_perm_aux :
    ∀ (l acc : List (ℚ × Song)),
      (l.foldl (fun a x => insertDesc x a) acc).Perm (acc ++ l) := by
  intro l
  induction l with
  | nil => intro acc; simp
  | cons x xs ih =>
    intro acc
    rw [List.foldl_cons]
    have h1 := ih (insertDesc x acc)
    have h2 : (insertDesc x acc ++ xs).Perm ((x :: acc) ++ xs) :=
      (insertDesc_perm x acc).append_right xs
    have h3 : ((x :: acc) ++ xs).Perm (acc ++ x :: xs) := by
      rw [List.cons_append]
      exact List.perm_middle.symm
    exact h1.trans (h2.trans h3)

theorem sortDesc_perm (l : List (ℚ × Song)) : (sortDesc l).Perm l := by
  have := sortDesc_perm_aux l []
  simpa [sortDesc] using this

theorem insertDesc_sorted (x : ℚ × Song) :
    ∀ l : List (ℚ × Song), l.Sorted (fun a b => b.1 ≤ a.1) →
      (insertDesc x l).Sorted (fun a b => b.1 ≤ a.1) := by
  intro l
  induction l with
  | nil => intro _; exact List.sorted_singleton x
  | cons y ys ih =>
    intro hs
    rw [List.sorted_cons] at hs
    obtain ⟨hy, hys⟩ := hs
    rw [insertDesc]
    by_cases h : x.1 ≤ y.1
    · rw [if_pos h, List.sorted_cons]
      refine ⟨?_, ih hys⟩
      intro b hb
      rcases List.mem_cons.mp ((insertDesc_perm x ys).mem_iff.mp hb) with rfl | hbys
      · exact h
      · exact hy b hbys
    · rw [if_neg h, List.sorted_cons]
      refine ⟨?_, List.sorted_cons.mpr ⟨hy, hys⟩⟩
      intro b hb
      rcases List.mem_cons.mp hb with rfl | hbys
      · exact le_of_lt (lt_of_not_le h)
      · exact le_trans (hy b hbys) (le_of_lt (lt_of_not_le h))

theorem sortDesc_sorted_aux :
    ∀ (l acc : List (ℚ × Song)), acc.Sorted (fun a b => b.1 ≤ a.1) →
      (l.foldl (fun a x => insertDesc x a) acc).Sorted (fun a b => b.1 ≤ a.1) := by
  intro l
  induction l with
  | nil => intro acc h; exact h
  | cons x xs ih =>
    intro acc h
    rw [List.foldl_cons]
    exact ih (insertDesc x acc) (insertDesc_sorted x acc h)

theorem sortDesc_sorted (l : List (ℚ × Song)) :
    (sortDesc l).Sorted (fun a b => b.1 ≤ a.1) :=
  sortDesc_sorted_aux l [] (List.sorted_nil)

theorem unionCard_pos {α : Type} [DecidableEq α] (xs ys : List α) (h : xs ≠ []) :
    0 < unionCard xs ys := by
  obtain ⟨x, hx⟩ := List.exists_mem_of_ne_nil xs h
  have hmem : x ∈ dedupF (xs ++ ys) := (mem_dedupF x _).mpr (List.mem_append_left _ hx)
  rw [unionCard]
  exact List.length_pos.mpr (List.ne_nil_of_mem hmem)

theorem interCard_ne_pos {α : Type} [DecidableEq α] (xs ys : List α)
    (h : 0 < interCard xs ys) : xs ≠ [] := by
  intro hnil
  rw [interCard, hnil] at h
  simp [dedupF, dedupFAux] at h

theorem searchScore_pos_iff (ar : Song → String) (term : String) (s : Song) :
    0 < searchScore ar term s
      ↔ 0 < interCard (pyTokens (song_string ar s)) (pyTokens term) := by
  constructor
  · intro h
    by_contra h2
    have hz : interCard (pyTokens (song_string ar s)) (pyTokens term) = 0 := by omega
    rw [searchScore, hz] at h
    simp at h
  · intro h
    have hxs := interCard_ne_pos _ _ h
    have hu := unionCard_pos (pyTokens (song_string ar s)) (pyTokens term) hxs
    have hmin : min 1 (unionCard (pyTokens (song_string ar s)) (pyTokens term)) = 1 := by omega
    rw [searchScore, hmin]
    simp only [Nat.cast_one, div_one]
    exact_mod_cast h

theorem searchScore_eq_inter (ar : Song → String) (term : String) (s : Song)
    (h : pyTokens (song_string ar s) ≠ []) :
    searchScore ar term s
      = (interCard (pyTokens (song_string ar s)) (pyTokens term) : ℚ) := by
  have hu := unionCard_pos (pyTokens (song_string ar s)) (pyTokens term) h
  have hmin : min 1 (unionCard (pyTokens (song_string ar s)) (pyTokens term)) = 1 := by omega
  rw [searchScore, hmin]
  simp

theorem filterMap_matches_snd (ar : Song → String) (term : String) :
    ∀ snapshot : List Song,
      ((snapshot.filterMap (fun s =>
        if 0 < searchScore ar term s then some (searchScore ar term s, s) else none)).map
          Prod.snd)
        = snapshot.filter (fun s => decide (0 < searchScore ar term s)) := by
  intro snapshot
  induction snapshot with
  | nil => rfl
  | cons s rest ih =>
    by_cases h : 0 < searchScore ar term s
    · simp [List.filterMap_cons, List.filter_cons, h, ih]
    · simp [List.filterMap_cons, List.filter_cons, h, ih]

theorem matches_fst (ar : Song → String) (term : String) (snapshot : List Song) :
    ∀ p ∈ snapshot.filterMap (fun s =>
      if 0 < searchScore ar term s then some (searchScore ar term s, s) else none),
      p.1 = searchScore ar term p.2 := by
  intro p hp
  obtain ⟨a, _, hfa⟩ := List.mem_filterMap.mp hp
  by_cases h : 0 < searchScore ar term a
  · rw [if_pos h] at hfa
    cases hfa
    rfl
  · rw [if_neg h] at hfa
    exact Option.noConfusion hfa

/-- C8, amended: the score at line 104 divides the token-intersection size by
`min(1, |union|)` — not the Jaccard index — so it is positive exactly when
the term shares a token with the descriptor, and equals the intersection
COUNT whenever the descriptor has any token; the descriptor's artist part is
Python's repr of the un-called `get_artists` bound method (the external
`artistsRepr`); the result is exactly the positively-scored snapshot songs,
sorted by descending score (stable). -/
theorem C8_search_ranking (artistsRepr : Song → String) (snapshot : List Song)
    (term : String) :
    (∀ s ∈ snapshot, (0 < searchScore artistsRepr term s
        ↔ 0 < interCard (pyTokens (song_string artistsRepr s)) (pyTokens term)))
    ∧ (∀ s ∈ snapshot, pyTokens (song_string artistsRepr s) ≠ [] →
        searchScore artistsRepr term s
          = (interCard (pyTokens (song_string artistsRepr s)) (pyTokens term) : ℚ))
    ∧ (search_song artistsRepr snapshot term).Perm
        (snapshot.filter (fun s => decide (0 < searchScore artistsRepr term s)))
    ∧ ((search_song artistsRepr snapshot term).map (searchScore artistsRepr term)).Sorted
        (fun a b => b ≤ a) := by
  refine ⟨fun s _ => searchScore_pos_iff artistsRepr term s,
          fun s _ h => searchScore_eq_inter artistsRepr term s h, ?_, ?_⟩
  · rw [search_song, ← filterMap_matches_snd]
    exact (sortDesc_perm _).map Prod.snd
  · have hsorted := sortDesc_sorted (snapshot.filterMap (fun s =>
      if 0 < searchScore artistsRepr term s then some (searchScore artistsRepr term s, s)
      else none))
    have hmap : (search_song artistsRepr snapshot term).map (searchScore artistsRepr term)
        = (sortDesc (snapshot.filterMap (fun s =>
            if 0 < searchScore artistsRepr term s
            then some (searchScore artistsRepr term s, s) else none))).map Prod.fst := by
      rw [search_song, List.map_map]
      refine List.map_congr_left ?_
      intro p hp
      have hpm := (sortDesc_perm _).mem_iff.mp hp
      exact (matches_fst artistsRepr term snapshot p hpm).symm
    rw [hmap]
    exact List.Pairwise.map Prod.fst (fun a b h => h) hsorted

/-- The runtime repr of the un-called bound method; its concrete address part
is irrelevant to the counterexample (none of its tokens meet the term). -/
def artistsRepr0 : Song → String :=
  fun _ => "<bound method Song.get_artists of <modules.model_song.Song object at 0x0>>"

/-- A snapshot song with a long title matching three term tokens. -/
def songBig : Song :=
  { song0 with title := "a b c q1 q2 q3 q4 q5 q6 q7 q8 q9 q10 q11 q12 q13 q14 q15 q16 q17 q18 q19 q20",
               album := "al1", album_artist := "x", track_number := 1, file_path := "/s/1.mp3" }

/-- A snapshot song with a short descriptor matching one title token and one
artist token. -/
def songSmall : Song :=
  { song0 with title := "a", album := "al2", album_artist := "zzz", track_number := 1,
               file_path := "/s/2.mp3" }

/-- A snapshot song matched only through its artist name. -/
def songArtistOnly : Song :=
  { song0 with title := "w", album := "al4", album_artist := "zzz", track_number := 1,
               file_path := "/s/4.mp3" }

theorem specScore_lt (term : String) (s1 s2 : Song)
    (h1 : ¬(pyTokens (descSpec s1) = [] ∨ pyTokens term = []))
    (h2 : ¬(pyTokens (descSpec s2) = [] ∨ pyTokens term = []))
    (h : interCard (pyTokens (descSpec s1)) (pyTokens term)
          * max 1 (unionCard (pyTokens (descSpec s2)) (pyTokens term))
        < interCard (pyTokens (descSpec s2)) (pyTokens term)
          * max 1 (unionCard (pyTokens (descSpec s1)) (pyTokens term))) :
    specSearchScore term s1 < specSearchScore term s2 := by
  rw [specSearchScore, specSearchScore, _jaccard_index, if_neg h1, _jaccard_index, if_neg h2]
  rw [show ((1 : ℚ) ⊔ (unionCard (pyTokens (descSpec s1)) (pyTokens term) : ℚ))
      = ((max 1 (unionCard (pyTokens (descSpec s1)) (pyTokens term)) : Nat) : ℚ) by
    rw [Nat.cast_max]; norm_num]
  rw [show ((1 : ℚ) ⊔ (unionCard (pyTokens (descSpec s2)) (pyTokens term) : ℚ))
      = ((max 1 (unionCard (pyTokens (descSpec s2)) (pyTokens term)) : Nat) : ℚ) by
    rw [Nat.cast_max]; norm_num]
  have d1 : (0 : ℚ) < ((max 1 (unionCard (pyTokens (descSpec s1)) (pyTokens term)) : Nat) : ℚ) := by
    exact_mod_cast Nat.lt_of_lt_of_le Nat.zero_lt_one (le_max_left 1 _)
  have d2 : (0 : ℚ) < ((max 1 (unionCard (pyTokens (descSpec s2)) (pyTokens term)) : Nat) : ℚ) := by
    exact_mod_cast Nat.lt_of_lt_of_le Nat.zero_lt_one (le_max_left 1 _)
  rw [div_lt_div_iff₀ d1 d2]
  exact_mod_cast h

theorem specScore_pos (term : String) (s : Song)
    (h1 : ¬(pyTokens (descSpec s) = [] ∨ pyTokens term = []))
    (h : 0 < interCard (pyTokens (descSpec s)) (pyTokens term)) :
    0 < specSearchScore term s := by
  rw [specSearchScore, _jaccard_index, if_neg h1]
  apply div_pos
  · exact_mod_cast h
  · have : (0 : ℚ) < ((max 1 (unionCard (pyTokens (descSpec s)) (pyTokens term)) : Nat) : ℚ) := by
      exact_mod_cast Nat.lt_of_lt_of_le Nat.zero_lt_one (le_max_left 1 _)
    rw [Nat.cast_max] at this
    simpa using this

/-- C8, counterexample to the claim as stated: the code returns the long-title
song first although its token-Jaccard score is lower than the short song's
(the `min` denominator makes the score an intersection count), and it drops a
song whose Jaccard score is positive (the artist name never reaches the
descriptor because `get_artists` is not called). -/
theorem C8_counterexample :
    search_song artistsRepr0 [songBig, songSmall, songArtistOnly] "a b c zzz"
        = [songBig, songSmall]
    ∧ specSearchScore "a b c zzz" songSmall > specSearchScore "a b c zzz" songBig
    ∧ specSearchScore "a b c zzz" songArtistOnly > 0
    ∧ songArtistOnly ∉ search_song artistsRepr0 [songBig, songSmall, songArtistOnly]
        "a b c zzz" := by
  have hbpos : 0 < searchScore artistsRepr0 "a b c zzz" songBig :=
    (searchScore_pos_iff artistsRepr0 "a b c zzz" songBig).mpr (by decide)
  have hspos : 0 < searchScore artistsRepr0 "a b c zzz" songSmall :=
    (searchScore_pos_iff artistsRepr0 "a b c zzz" songSmall).mpr (by decide)
  have hanpos : ¬ 0 < searchScore artistsRepr0 "a b c zzz" songArtistOnly := fun h =>
    absurd ((searchScore_pos_iff artistsRepr0 "a b c zzz" songArtistOnly).mp h) (by decide)
  have scoreB : searchScore artistsRepr0 "a b c zzz" songBig = ((3 : Nat) : ℚ) := by
    rw [searchScore_eq_inter artistsRepr0 "a b c zzz" songBig (by decide)]
    norm_cast
  have scoreS : searchScore artistsRepr0 "a b c zzz" songSmall = ((1 : Nat) : ℚ) := by
    rw [searchScore_eq_inter artistsRepr0 "a b c zzz" songSmall (by decide)]
    norm_cast
  have hres : search_song artistsRepr0 [songBig, songSmall, songArtistOnly] "a b c zzz"
      = [songBig, songSmall] := by
    have hfb : (if 0 < searchScore artistsRepr0 "a b c zzz" songBig then
        some (searchScore artistsRepr0 "a b c zzz" songBig, songBig) else none)
        = some (searchScore artistsRepr0 "a b c zzz" songBig, songBig) := if_pos hbpos
    have hfs : (if 0 < searchScore artistsRepr0 "a b c zzz" songSmall then
        some (searchScore artistsRepr0 "a b c zzz" songSmall, songSmall) else none)
        = some (searchScore artistsRepr0 "a b c zzz" songSmall, songSmall) := if_pos hspos
    have hfa : (if 0 < searchScore artistsRepr0 "a b c zzz" songArtistOnly then
        some (searchScore artistsRepr0 "a b c zzz" songArtistOnly, songArtistOnly) else none)
        = none := if_neg hanpos
    rw [search_song, List.filterMap_cons, List.filterMap_cons, List.filterMap_cons,
      List.filterMap_nil]
    rw [hfb, hfs, hfa]
    show (sortDesc [(searchScore artistsRepr0 "a b c zzz" songBig, songBig),
      (searchScore artistsRepr0 "a b c zzz" songSmall, songSmall)]).map Prod.snd = _
    have hle : ((searchScore artistsRepr0 "a b c zzz" songSmall, songSmall) : ℚ × Song).1
        ≤ ((searchScore artistsRepr0 "a b c zzz" songBig, songBig) : ℚ × Song).1 := by
      show searchScore artistsRepr0 "a b c zzz" songSmall
        ≤ searchScore artistsRepr0 "a b c zzz" songBig
      rw [scoreS, scoreB]
      exact_mod_cast Nat.le_of_lt (by decide)
    rw [sortDesc, List.foldl_cons, List.foldl_cons, List.foldl_nil]
    rw [show insertDesc (searchScore artistsRepr0 "a b c zzz" songBig, songBig) [] =
      [(searchScore artistsRepr0 "a b c zzz" songBig, songBig)] from rfl]
    rw [insertDesc, if_pos hle]
    rfl
  refine ⟨hres, ?_, ?_, ?_⟩
  · exact specScore_lt "a b c zzz" songBig songSmall (by decide) (by decide) (by decide)
  · exact specScore_pos "a b c zzz" songArtistOnly (by decide) (by decide)
  · rw [hres]
    decide

/-- Closed instance of `C8_search_ranking`: at a concrete song the line-104
score equals the token-intersection count. -/
theorem C8_search_ranking_witness :
    searchScore artistsRepr0 "a" songSmall
      = (interCard (pyTokens (song_string artistsRepr0 songSmall)) (pyTokens "a") : ℚ) :=
  (C8_search_ranking artistsRepr0 [songSmall] "a").2.1 songSmall (by decide) (by decide)

/-! ### Serialization records (`to_dict` / `from_dict`) -/

/-- The dict produced by `Song.to_dict` (all keys always present). -/
structure SongRecord where
  file_path : String
  track_number : Nat
  disc_number : Nat
  title : String
  album_artist : String
  other_artists : List String
  album : String
  duration : Nat
  release_year : Int
  genres : List String
  play_count : Nat
  last_played : String
  lyrics : String
  explicit : Bool
  bitrate : Nat
  format : String
  file_size : Nat
  cover_art : String
  loudness : ℚ
  peak : ℚ
  lastfm_playcount : Nat
  lastfm_tags : List String
  hash : String
deriving DecidableEq, Repr

/-- `Song.to_dict`. -/
def Song.to_dict (s : Song) : SongRecord :=
  ⟨s.file_path, s.track_number, s.disc_number, s.title, s.album_artist, s.other_artists,
   s.album, s.duration, s.release_year, s.genres, s.play_count, s.last_played, s.lyrics,
   s.explicit, s.bitrate, s.format, s.file_size, s.cover_art, s.loudness, s.peak,
   s.lastfm_playcount, s.lastfm_tags, s.hash⟩

/-- An arbitrary persisted song dict: any key may be absent
(`data.get(key, default)`). -/
structure SongDict where
  file_path : Option String
  track_number : Option Nat
  disc_number : Option Nat
  title : Option String
  album_artist : Option String
  other_artists : Option (List String)
  album : Option String
  duration : Option Nat
  release_year : Option Int
  genres : Option (List String)
  play_count : Option Nat
  last_played : Option String
  lyrics : Option String
  explicit : Option Bool
  bitrate : Option Nat
  format : Option String
  file_size : Option Nat
  cover_art : Option String
  loudness : Option ℚ
  peak : Option ℚ
  lastfm_playcount : Option Nat
  lastfm_tags : Option (List String)
  hash : Option String
deriving DecidableEq, Repr

/-- Leading/trailing whitespace strip (Python `str.strip()`). -/
def pyStrip (s : String) : String :=
  String.mk (((s.data.dropWhile Char.isWhitespace).reverse.dropWhile Char.isWhitespace).reverse)

/-- Count of leading whitespace characters. -/
def wsCount : List Char → Nat
  | c :: cs => if c.isWhitespace then wsCount cs + 1 else 0
  | [] => 0

/-- Leftmost-alternative match of the `_fix_genres` delimiter pattern
`[,&/;]| and |\s+\|\s+|\s+/\s+|\s+-\s+` at the head of `cs`, returning
the matched length. -/
def matchDelim (cs : List Char) : Option Nat :=
  match cs with
  | [] => none
  | c :: _ =>
    if c = ',' || c = '&' || c = '/' || c = ';' then some 1
    else
      match cs with
      | ' ' :: 'a' :: 'n' :: 'd' :: ' ' :: _ => some 5
      | _ =>
        if c.isWhitespace then
          let w := wsCount cs
          match cs.drop w with
          | m :: rest2 =>
            if (m = '|' || m = '/' || m = '-') && decide (1 ≤ wsCount rest2) then
              some (w + 1 + wsCount rest2)
            else none
          | [] => none
        else none

/-- `re.split` scan with explicit fuel (one character consumed per step). -/
def pySplitAux : Nat → List Char → List Char → List String
  | 0, cs, acc => [String.mk (acc.reverse ++ cs)]
  | _ + 1, [], acc => [String.mk acc.reverse]
  | fuel + 1, c :: rest, acc =>
    match matchDelim (c :: rest) with
    | some n => String.mk acc.reverse :: pySplitAux fuel ((c :: rest).drop n) []
    | none => pySplitAux fuel rest (c :: acc)

/-- `re.split(r"[,&/;]| and |\s+\|\s+|\s+/\s+|\s+-\s+", s)`. -/
def pyReSplit (s : String) : List String := pySplitAux (s.data.length + 1) s.data []

/-- `Song._fix_genres` on the genre list: split each genre, strip, drop
empties, dedup keeping first occurrences (`sorted(set(fixed), key=fixed.index)`). -/
def fixGenres (genres : List String) : List String :=
  if genres = [] then genres
  else dedupF ((genres.map (fun g => ((pyReSplit g).map pyStrip).filter
    (fun p => !(p == "")))).flatten)

/-- `Song.from_dict`: per-field defaults, then `_fix_genres`. -/
def Song.from_dict (d : SongDict) : Song :=
  { file_path := d.file_path.getD ""
    track_number := d.track_number.getD 0
    disc_number := d.disc_number.getD 0
    title := d.title.getD ""
    album_artist := d.album_artist.getD ""
    other_artists := d.other_artists.getD []
    album := d.album.getD ""
    duration := d.duration.getD 0
    release_year := d.release_year.getD 0
    genres := fixGenres (d.genres.getD [])
    play_count := d.play_count.getD 0
    last_played := d.last_played.getD ""
    lyrics := d.lyrics.getD ""
    explicit := d.explicit.getD false
    bitrate := d.bitrate.getD 0
    format := d.format.getD ""
    file_size := d.file_size.getD 0
    cover_art := d.cover_art.getD ""
    loudness := d.loudness.getD 0
    peak := d.peak.getD 0
    lastfm_playcount := d.lastfm_playcount.getD 0
    lastfm_tags := d.lastfm_tags.getD []
    hash := d.hash.getD ""
    popularity := none }

/-- The Artist entity (`modules/model_artist.py`). -/
structure Artist where
  hash : String
  name : String
  genres : List String
  play_count : Nat
  songs : List Song
  albums : List Album
deriving DecidableEq, Repr

/-- The dict produced by `Album.to_dict` (`songs` holds song hashes). -/
structure AlbumRecord where
  name : String
  album_artist : String
  artists : List String
  release_year : Int
  play_count : Nat
  songs : List String
  path : String
  cover_art : String
  album_path : String
  loudness : ℚ
  peak : ℚ
  hash : String
deriving DecidableEq, Repr

/-- `Album.to_dict`. -/
def Album.to_dict (a : Album) : AlbumRecord :=
  ⟨a.name, a.album_artist, a.artists, a.release_year, a.play_count,
   a.songs.map (fun s => (Song.get_hash s).1), a.path, a.cover_art, a.album_path,
   a.loudness, a.peak, a.hash⟩

/-- The dict produced by `Artist.to_dict`. -/
structure ArtistRecord where
  hash : String
  name : String
  genres : List String
  play_count : Nat
  songs : List String
  albums : List String
deriving DecidableEq, Repr

/-- `Artist.to_dict`. -/
def Artist.to_dict (a : Artist) : ArtistRecord :=
  ⟨a.hash, a.name, a.genres, a.play_count, a.songs.map (fun s => (Song.get_hash s).1),
   a.albums.map Album.hash⟩

/-- A persisted album dict with optional keys. -/
structure AlbumDict where
  name : Option String
  album_artist : Option String
  artists : Option (List String)
  release_year : Option Int
  play_count : Option Nat
  songs : Option (List String)
  path : Option String
  cover_art : Option String
  album_path : Option String
  loudness : Option ℚ
  peak : Option ℚ
  hash : Option String
deriving DecidableEq, Repr

/-- Association-list lookup for the hash-to-entity maps. -/
def assocFind {α : Type} (k : String) : List (String × α) → Option α
  | [] => none
  | (k2, v) :: rest => if k2 = k then some v else assocFind k rest

/-- `Album.from_dict`: rebuild the album, restore song references through the
hash map, then `_search_cover` (cover discovery is the external
`find_cover`). -/
def Album.from_dict (find_cover : String → String) (d : AlbumDict)
    (song_map : List (String × Song)) : Album :=
  let a0 := Album.init (d.album_path.getD "")
  let a1 := { a0 with
    name := d.name.getD ""
    album_artist := d.album_artist.getD ""
    artists := d.artists.getD []
    release_year := d.release_year.getD 0
    play_count := d.play_count.getD 0
    cover_art := d.cover_art.getD ""
    loudness := d.loudness.getD 0
    peak := d.peak.getD 0
    hash := d.hash.getD ""
    path := d.path.getD ""
    songs := ((d.songs.getD []).map (fun h => assocFind h song_map)).reduceOption }
  if a1.cover_art = "" then { a1 with cover_art := find_cover a1.album_path } else a1

/-- A persisted artist dict with optional keys. -/
structure ArtistDict where
  name : Option String
  genres : Option (List String)
  play_count : Option Nat
  hash : Option String
  songs : Option (List String)
  albums : Option (List String)
deriving DecidableEq, Repr

/-- `Artist.from_dict` (from `modules/model_artist.py`): construct from the
name, override play count and hash, restore song and album references. -/
def Artist.from_dict (d : ArtistDict) (song_map : List (String × Song))
    (album_map : List (String × Album)) : Artist :=
  { hash := d.hash.getD ""
    name := d.name.getD ""
    genres := d.genres.getD []
    play_count := d.play_count.getD 0
    songs := ((d.songs.getD []).map (fun h => assocFind h song_map)).reduceOption
    albums := ((d.albums.getD []).map (fun h => assocFind h album_map)).reduceOption }

/-! ### Persistence traces (C5) and bootstrap (C9) -/

/-- JSON payloads written by the catalog saves. -/
inductive Payload where
  | songs (records : List SongRecord)
  | albums (records : List AlbumRecord)
  | artists (records : List ArtistRecord)
deriving DecidableEq, Repr

/-- Filesystem side effects performed by the persistence code. -/
inductive FsOp where
  | makedirs (path : String)
  | openWrite (path : String)
  | writeJson (path : String) (payload : Payload)
  | close (path : String)
  | rename (src : String) (dst : String)
deriving DecidableEq, Repr

/-- Whether an operation is a rename. -/
def FsOp.isRename : FsOp → Bool
  | .rename _ _ => true
  | _ => false

/-- The path an operation touches as a write destination, if any. -/
def FsOp.writePath : FsOp → Option String
  | .openWrite p => some p
  | .writeJson p _ => some p
  | _ => none

/-- Trace of `with open(target, "w") as f: json.dump(payload, f, ...)`. -/
def save_json (target : String) (payload : Payload) : List FsOp :=
  [FsOp.openWrite target, FsOp.writeJson target payload, FsOp.close target]

/-- The mid-scan song save (library_utils.py lines 190-191). -/
def save_songs (songs : List Song) : List FsOp :=
  save_json "data/songs.json" (Payload.songs (songs.map Song.to_dict))

/-- The final album save (library_utils.py lines 311-312). -/
def save_albums (albums : List Album) : List FsOp :=
  save_json "data/albums.json" (Payload.albums (albums.map Album.to_dict))

/-- The final artist save (library_utils.py lines 314-315). -/
def save_artists (artists : List Artist) : List FsOp :=
  save_json "data/artists.json" (Payload.artists (artists.map Artist.to_dict))

/-- The save block at the end of `scan_library` (lines 304-315). -/
def scan_final_saves (songs : List Song) (albums : List Album)
    (artists : List Artist) : List FsOp :=
  FsOp.makedirs "output" :: (save_songs songs ++ save_albums albums ++ save_artists artists)

/-- Modelled from the claim words: a save trace is atomic when it writes only
to a temporary file distinct from the target and ends with a rename of that
temporary file over the target. -/
def atomicSave (target : String) (trace : List FsOp) : Prop :=
  (∃ tmp, tmp ≠ target ∧
    (∀ op ∈ trace, ∀ p, op.writePath = some p → p = tmp) ∧
    trace.getLast? = some (FsOp.rename tmp target)) ∧
  (∀ op ∈ trace, op.writePath ≠ some target)

end PyMuLiSe

namespace PyMuLiSe

/-- A filesystem view of the `data` directory: `dirExists` is whether `data`
exists, each catalog file is `some` parsed content when present, `none` when
absent. -/
structure DataDir where
  dirExists : Bool
  songs : Option (List SongDict)
  albums : Option (List AlbumDict)
  artists : Option (List ArtistDict)
deriving DecidableEq, Repr

/-- `init_library` (library_utils.py lines 81-100): create the directory and
any missing catalog file, returning the `is_new` flag and the resulting
directory. Faithfully, the albums branch does NOT set `is_new` (and the
artists branch sets it twice). -/
def init_library (d : DataDir) : Bool × DataDir :=
  let is_new := false
  let (is_new, d) :=
    if !d.dirExists then (true, { d with dirExists := true }) else (is_new, d)
  let (is_new, d) :=
    if d.songs = none then (true, { d with songs := some [] }) else (is_new, d)
  let d := if d.albums = none then { d with albums := some [] } else d
  let (is_new, d) :=
    if d.artists = none then (true, { d with artists := some [] }) else (is_new, d)
  (is_new, d)

/-- `load_library` (library_utils.py lines 103-132): bootstrap, then on a
non-fresh library deserialize songs (materializing each hash through the
`song_map` comprehension, which calls `get_hash`), albums and artists. -/
def load_library (find_cover : String → String) (d : DataDir) :
    (List Song × List Album × List Artist) × DataDir :=
  match init_library d with
  | (true, d2) => (([], [], []), d2)
  | (false, d2) =>
    let song_objects := ((d2.songs.getD []).map Song.from_dict).map
      (fun s => (Song.get_hash s).2)
    let song_map := song_objects.map (fun s => ((Song.get_hash s).1, s))
    let album_objects := (d2.albums.getD []).map
      (fun ad => Album.from_dict find_cover ad song_map)
    let album_map := album_objects.map (fun a => (a.hash, a))
    let artist_objects := (d2.artists.getD []).map
      (fun ad => Artist.from_dict ad song_map album_map)
    ((song_objects, album_objects, artist_objects), d2)

/-- A persisted song dict for one ordinary song (hash already stored). -/
def sdictA : SongDict :=
  ⟨some "/music/a.mp3", some 1, some 1, some "T", some "Art", some [], some "Al",
   some 200, some 2020, some [], some 0, some "", some "", some false, some 320,
   some "mp3", some 0, some "", some (-8), some 1, some 0, some [], some "h123"⟩

/-- `data` exists, songs.json has one song, artists.json is present and empty,
albums.json is ABSENT. -/
def dMissingAlbums : DataDir := ⟨true, some [sdictA], none, some []⟩

/-- `data` exists but songs.json is absent. -/
def dMissingSongs : DataDir := ⟨true, none, some [], some []⟩

/-- Nothing exists yet (true first run). -/
def dAllMissing : DataDir := ⟨false, none, none, none⟩

end PyMuLiSe

namespace PyMuLiSe

/-- C5 counterexample: the song save writes directly into the target file
`data/songs.json` (the very first operation opens the target for writing), so
it is not an atomic temp-file-plus-rename save even for the empty catalog. -/
theorem C5_counterexample : ¬ atomicSave "data/songs.json" (save_songs []) := by
  rintro ⟨-, h2⟩
  exact h2 (FsOp.openWrite "data/songs.json") (by simp [save_songs, save_json]) rfl

/-- C5 (amended): every catalog save (songs, albums, artists) is exactly the
in-place trace open-target / dump-records / close-target; no save and no
operation of the final save block performs a rename, and none of the three
saves satisfies the temp-file-plus-atomic-rename discipline, so a concurrent
reader of the target can observe a partially written file. -/
theorem C5_save_traces (songs : List Song) (albums : List Album)
    (artists : List Artist) :
    save_songs songs = [FsOp.openWrite "data/songs.json",
      FsOp.writeJson "data/songs.json" (Payload.songs (songs.map Song.to_dict)),
      FsOp.close "data/songs.json"] ∧
    save_albums albums = [FsOp.openWrite "data/albums.json",
      FsOp.writeJson "data/albums.json" (Payload.albums (albums.map Album.to_dict)),
      FsOp.close "data/albums.json"] ∧
    save_artists artists = [FsOp.openWrite "data/artists.json",
      FsOp.writeJson "data/artists.json" (Payload.artists (artists.map Artist.to_dict)),
      FsOp.close "data/artists.json"] ∧
    (∀ op ∈ scan_final_saves songs albums artists, op.isRename = false) ∧
    ¬ atomicSave "data/albums.json" (save_albums albums) ∧
    ¬ atomicSave "data/artists.json" (save_artists artists) := by
  refine ⟨rfl, rfl, rfl, ?_, ?_, ?_⟩
  · intro op hop
    simp [scan_final_saves, save_songs, save_albums, save_artists, save_json] at hop
    rcases hop with rfl | rfl | rfl | rfl | rfl | rfl | rfl | rfl | rfl | rfl <;> rfl
  · rintro ⟨-, h2⟩
    exact h2 (FsOp.openWrite "data/albums.json") (by simp [save_albums, save_json]) rfl
  · rintro ⟨-, h2⟩
    exact h2 (FsOp.openWrite "data/artists.json") (by simp [save_artists, save_json]) rfl

/-- C9: the bootstrap flag is computed correctly when songs.json or everything
is missing (fresh, empty collections, files created), but when ONLY
albums.json is missing `init_library` returns `is_new = False` — the albums
branch never sets the flag — so `load_library` does not signal fresh and
returns the deserialized (non-empty) song collection instead of three empty
collections, contradicting the claim. -/
theorem C9_bootstrap_gap :
    (init_library dMissingSongs).1 = true ∧
    (init_library dAllMissing).1 = true ∧
    (init_library dAllMissing).2 = ⟨true, some [], some [], some []⟩ ∧
    (load_library (fun _ => "") dAllMissing).1 = ([], [], []) ∧
    (init_library dMissingAlbums).1 = false ∧
    (init_library dMissingAlbums).2.albums = some [] ∧
    ((load_library (fun _ => "") dMissingAlbums).1).1.length = 1 :=
  ⟨rfl, rfl, rfl, rfl, rfl, rfl, rfl⟩

end PyMuLiSe
